import Mathlib

/-!
Verification of the zxcrypt superblock manager (`src/system/ulib/zxcrypt/superblock.cpp`).

The C++ code is shallowly embedded: byte buffers are `List Nat`, machine
integers are `Nat` with explicit `% 2 ^ 64` where the source performs
unsigned 64-bit arithmetic, statuses are an inductive `Status`, and the
backing block device is a `Disk` record holding the stored bytes together
with per-offset read/write success oracles.  Randomness (`Randomize`,
`InitRandom`) is supplied by the caller as explicit byte-list arguments.
External crypto collaborators (HKDF, AEAD, the length getters of the
crypto library) are not part of the repository source and are modelled
from the spec as concrete deterministic functions.
-/

namespace Zxcrypt

/-- Zircon status codes used by the superblock manager. -/
inductive Status where
  | ok
  | errNext
  | errStop
  | errInvalidArgs
  | errBadState
  | errNotSupported
  | errNoSpace
  | errAccessDenied
  | errIO
  | errInternal
  | errNoMemory
  deriving DecidableEq

/-- Byte buffers (crypto::Bytes); each entry is one byte. -/
abbrev Bytes := List Nat

def GUID_LEN : Nat := 16

/-- Maximum number of key slots (superblock.cpp line 49). -/
def kNumSlots : Nat := 16

/-- Number of metadata blocks reserved at each end of the device (line 54). -/
def kReservedPairs : Nat := 2

/-- Header is type GUID | instance GUID | version (line 64). -/
def kHeaderLen : Nat := GUID_LEN + GUID_LEN + 4

def kMaxLabelLen : Nat := 16

def PAGE_SIZE : Nat := 4096

/-- Superblock::kAES256_XTS_SHA256, the only known version value. -/
def kAES256_XTS_SHA256 : Nat := 1

def kDefaultVersion : Nat := kAES256_XTS_SHA256

/-- One past the largest uint64 value; unsigned 64-bit arithmetic wraps mod this. -/
def U64 : Nat := 2 ^ 64

/-- Modelled from the spec: `kTypeGuid` is "a fixed 16-byte constant supplied by
the project" (spec section 6); its exact bytes are defined outside the provided
source, so an arbitrary fixed 16-byte value stands in for it. -/
def kTypeGuid : Bytes :=
  [95, 94, 93, 92, 91, 90, 89, 88, 87, 86, 85, 84, 83, 82, 81, 80]

/-- Modelled from the spec: version 1 selects AEAD = AES-128-GCM-SIV (spec
section 6); `crypto::AEAD::GetKeyLen` for it yields a 128-bit key. -/
def kAeadKeyLen : Nat := 16

/-- Modelled from the spec: AES-128-GCM-SIV nonce length (`crypto::AEAD::GetIVLen`). -/
def kAeadIvLen : Nat := 12

/-- Modelled from the spec: AES-128-GCM-SIV tag length (`crypto::AEAD::GetTagLen`). -/
def kAeadTagLen : Nat := 16

/-- Modelled from the spec: scenario S1 fixes `data_key` length = 32
(`crypto::Cipher::GetKeyLen` for AES-256-XTS). -/
def kDataKeyLen : Nat := 32

/-- Modelled from the spec: scenario S1 fixes `data_iv` length = 16
(`crypto::Cipher::GetIVLen` for AES-256-XTS). -/
def kDataIvLen : Nat := 16

/-- Modelled from the spec: SHA-256 digest length (`crypto::digest::GetDigestLen`). -/
def kDigestLen : Nat := 32

/-- Algorithm selector for the wrapping AEAD (crypto::AEAD). -/
inductive AeadAlg where
  | uninitialized
  | aes128GcmSiv
  deriving DecidableEq

/-- Algorithm selector for the data-path cipher (crypto::Cipher). -/
inductive CipherAlg where
  | uninitialized
  | aes256Xts
  deriving DecidableEq

/-- Algorithm selector for the KDF digest (crypto::digest). -/
inductive DigestAlg where
  | uninitialized
  | sha256
  deriving DecidableEq

/-- `Randomize`/`InitRandom` fill a buffer of a known length; the caller-supplied
randomness `r` is cut or zero-padded to exactly `n` bytes. -/
def fill (n : Nat) (r : Bytes) : Bytes := (r ++ List.replicate n 0).take n

/-- Read `len` bytes of `l` starting at byte offset `off` (truncating at the end). -/
def seg (l : Bytes) (off len : Nat) : Bytes := (l.drop off).take len

/-- `memcpy(dst + off, src, src.length)`: overwrite `dst` at `off` with `src`. -/
def listWrite (dst : Bytes) (off : Nat) (src : Bytes) : Bytes :=
  dst.take off ++ src ++ dst.drop (off + src.length)

/-- `htonl`: 32-bit big-endian encoding. -/
def be32enc (n : Nat) : Bytes :=
  [n / 2 ^ 24 % 256, n / 2 ^ 16 % 256, n / 2 ^ 8 % 256, n % 256]

/-- `ntohl` of 4 bytes read by `memcpy`. -/
def be32dec (b : Bytes) : Nat :=
  b.getD 0 0 * 2 ^ 24 + b.getD 1 0 * 2 ^ 16 + b.getD 2 0 * 2 ^ 8 + b.getD 3 0

/-- Decimal digits of `n`, most significant first (20 digits cover uint64). -/
def decDigitsAux : Nat → Nat → List Nat
  | 0, _ => []
  | fuel + 1, n => if n < 10 then [n] else decDigitsAux fuel (n / 10) ++ [n % 10]

def decDigits (n : Nat) : List Nat := decDigitsAux 20 n

/-- ASCII bytes of `"wrap key "`, the head of `kWrapKeyLabel` before the slot number. -/
def kWrapKeyLabelHead : Bytes := [119, 114, 97, 112, 32, 107, 101, 121, 32]

/-- ASCII bytes of `"wrap iv "`, the head of `kWrapIvLabel` before the slot number. -/
def kWrapIvLabelHead : Bytes := [119, 114, 97, 112, 32, 105, 118, 32]

/-- `snprintf(label, kMaxLabelLen, kWrapKeyLabel, slot)`: the decimal slot number is
appended and the result truncated to at most `kMaxLabelLen - 1` characters. -/
def wrapKeyLabel (slot : Nat) : Bytes :=
  (kWrapKeyLabelHead ++ (decDigits slot).map (fun d => 48 + d)).take (kMaxLabelLen - 1)

def wrapIvLabel (slot : Nat) : Bytes :=
  (kWrapIvLabelHead ++ (decDigits slot).map (fun d => 48 + d)).take (kMaxLabelLen - 1)

def digestCode : DigestAlg → Nat
  | DigestAlg.uninitialized => 0
  | DigestAlg.sha256 => 2

/-- Deterministic accumulator over a byte list, used by the modelled crypto
primitives below to make their outputs depend on all of their inputs. -/
def mix (l : List Nat) : Nat :=
  l.foldl (fun a b => (a * 131 + b + 7) % 65521) 9

/-- Modelled from the spec: `crypto::HKDF` derivation (section 4.3) -
a deterministic function of the digest, the ikm (root key), the salt
(instance GUID) and the info label, producing `outLen` bytes. -/
def hkdfDerive (dg : DigestAlg) (ikm salt info : Bytes) (outLen : Nat) : Bytes :=
  (List.range outLen).map fun i =>
    (mix (digestCode dg :: ikm ++ 257 :: salt ++ 258 :: info) + 37 * i) % 256

/-- Modelled from the spec: the AEAD keystream; a deterministic function of the
wrap key, the nonce and the byte position. -/
def aeadKeystream (key iv : Bytes) (n : Nat) : Bytes :=
  (List.range n).map fun i => (mix (key ++ 259 :: iv) + 101 * i) % 256

/-- Modelled from the spec: the AEAD authentication tag over key, nonce,
associated data and plaintext. -/
def aeadTag (key iv ad ptext : Bytes) : Bytes :=
  (List.range kAeadTagLen).map fun i =>
    (mix (key ++ 260 :: iv ++ 261 :: ad ++ 262 :: ptext) + 59 * i) % 256

/-- Modelled from the spec: `crypto::AEAD` seal (section 4.4) - encrypt the
plaintext with the keystream and append the tag; the ciphertext is
`ptext.length + kAeadTagLen` bytes long. -/
def aeadSeal (key iv ad ptext : Bytes) : Bytes :=
  List.zipWith (fun p k => (p + k) % 256) ptext (aeadKeystream key iv ptext.length) ++
    aeadTag key iv ad ptext

/-- Modelled from the spec: `crypto::AEAD` open - split off the tag, decrypt,
verify the tag over the associated data; failure yields `none`. -/
def aeadOpen (key iv ad ctext : Bytes) : Option Bytes :=
  if ctext.length < kAeadTagLen then none
  else
    let body := ctext.take (ctext.length - kAeadTagLen)
    let tag := ctext.drop (ctext.length - kAeadTagLen)
    let ptext := List.zipWith (fun c k => (c + (256 - k)) % 256) body
      (aeadKeystream key iv body.length)
    if tag = aeadTag key iv ad ptext then some ptext else none

/-- In-memory state of one Superblock instance (the private fields of the
`Superblock` class: `blk_`, `fvm_`, `has_fvm_`, `block_`, `offset_`, `guid_`,
`aead_`, `wrap_key_`, `wrap_iv_`, `cipher_`, `data_key_`, `data_iv_`,
`slot_len_`, `digest_`, `digest_len_`, `header_`). -/
structure Volume where
  blk_block_size : Nat
  blk_block_count : Nat
  fvm_slice_size : Nat
  fvm_vslice_count : Nat
  has_fvm : Bool
  block : Bytes
  offset : Nat
  guid : Bytes
  aead : AeadAlg
  wrap_key : Bytes
  wrap_iv : Bytes
  cipher : CipherAlg
  data_key : Bytes
  data_iv : Bytes
  slot_len : Nat
  digest : DigestAlg
  digest_len : Nat
  header : Bytes
  deriving DecidableEq

/-- `Superblock::Reset` (lines 472-487): zero `blk_` and `fvm_`, clear the
buffers and reset the algorithm ids.  Note the source does not touch
`digest_len_` or `header_`. -/
def Reset (v : Volume) : Volume :=
  { v with
    blk_block_size := 0, blk_block_count := 0,
    fvm_slice_size := 0, fvm_vslice_count := 0,
    has_fvm := false, block := [], offset := U64 - 1, guid := [],
    aead := AeadAlg.uninitialized, wrap_key := [], wrap_iv := [],
    cipher := CipherAlg.uninitialized, data_key := [], data_iv := [],
    slot_len := 0, digest := DigestAlg.uninitialized }

/-- A fully zeroed volume, as produced by the constructors (which call `Reset`). -/
def resetVolume : Volume :=
  { blk_block_size := 0, blk_block_count := 0,
    fvm_slice_size := 0, fvm_vslice_count := 0,
    has_fvm := false, block := [], offset := U64 - 1, guid := [],
    aead := AeadAlg.uninitialized, wrap_key := [], wrap_iv := [],
    cipher := CipherAlg.uninitialized, data_key := [], data_iv := [],
    slot_len := 0, digest := DigestAlg.uninitialized,
    digest_len := 0, header := [] }

/-- The backing block device: stored bytes per byte offset, plus success
oracles for `Superblock::Read` and `Superblock::Write` at each offset. -/
structure Disk where
  mem : Nat → Bytes
  readOk : Nat → Bool
  writeOk : Nat → Bool

def diskWrite (d : Disk) (off : Nat) (b : Bytes) : Disk :=
  { d with mem := fun o => if o = off then b else d.mem o }

/-- `Superblock::Begin` (lines 491-498). -/
def beginOffset (s : Nat) : Status × Nat :=
  if s = 0 then (Status.errStop, U64 - 1) else (Status.errNext, 0)

/-- `Superblock::Next` (lines 500-514): advance `offset_` by `block_.len()`;
while inside the first slice keep yielding; once the first slice is done jump
to the first block of the last reserved slice; stop after that slice. -/
def nextOffset (blockLen s vc off : Nat) : Status × Nat :=
  let off2 := (off + blockLen) % U64
  let so := off2 % s
  if so ≠ 0 ∧ so < s then (Status.errNext, off2)
  else if off2 ≤ s then (Status.errNext, (vc + 1) % U64 * s % U64)
  else (Status.errStop, off2)

/-- Offsets yielded by repeatedly calling `Next` from `off`; the Bool is true
when the iteration reached `ZX_ERR_STOP` within `fuel` steps. -/
def locsAux : Nat → Nat → Nat → Nat → Nat → List Nat × Bool
  | 0, _, _, _, _ => ([], false)
  | fuel + 1, blockLen, s, vc, off =>
    match nextOffset blockLen s vc off with
    | (Status.errNext, off2) =>
      let r := locsAux fuel blockLen s vc off2
      (off2 :: r.1, r.2)
    | (_, _) => ([], true)

/-- The full trace of offsets produced by `Begin` followed by `Next` calls,
i.e. the locations visited by every `for (rc = Begin(); rc == ZX_ERR_NEXT;
rc = Next())` loop in the source. -/
def locations (fuel blockLen s vc : Nat) : List Nat × Bool :=
  if s = 0 then ([], true)
  else
    let r := locsAux fuel blockLen s vc 0
    (0 :: r.1, r.2)

/-- `Superblock::Configure` (lines 410-450): select the algorithms for the
version, resize the secret buffers, compute `slot_len_`, and reject the
version as unsupported when `kNumSlots` slots plus the header do not fit in
one block.  Note the source resizes the buffers and assigns `slot_len_`
before the fit check, so those mutations persist on that failure path. -/
def Configure (version : Nat) (v : Volume) : Status × Volume :=
  if version = kAES256_XTS_SHA256 then
    let v2 :=
      { v with
        aead := AeadAlg.aes128GcmSiv, cipher := CipherAlg.aes256Xts,
        digest := DigestAlg.sha256, digest_len := kDigestLen,
        wrap_key := List.replicate kAeadKeyLen 0,
        wrap_iv := List.replicate kAeadIvLen 0,
        data_key := List.replicate kDataKeyLen 0,
        data_iv := List.replicate kDataIvLen 0,
        slot_len := kDataKeyLen + kDataIvLen + kAeadTagLen }
    if v2.blk_block_size < kHeaderLen + kNumSlots * v2.slot_len then
      (Status.errNotSupported, v2)
    else (Status.ok, v2)
  else (Status.errNotSupported, v)

/-- `Superblock::DeriveSlotKeys` (lines 452-470): HKDF with the root key as
ikm and the instance GUID as salt; derive `wrap_key_` and `wrap_iv_` with the
slot-labelled info strings. -/
def DeriveSlotKeys (key : Bytes) (slot : Nat) (v : Volume) : Status × Volume :=
  (Status.ok,
   { v with
     wrap_key := hkdfDerive v.digest key v.guid (wrapKeyLabel slot) v.wrap_key.length,
     wrap_iv := hkdfDerive v.digest key v.guid (wrapIvLabel slot) v.wrap_iv.length })

/-- `Superblock::CreateBlock` (lines 516-552): randomize the backdrop, write
`kTypeGuid`, generate and stamp an RFC 4122 v4 instance GUID, configure the
default version, write the big-endian version, generate the data key and IV,
and cache the header prefix as AAD.  `backdrop`, `guidRand`, `dkRand` and
`divRand` supply the randomness. -/
def CreateBlock (backdrop guidRand dkRand divRand : Bytes) (v : Volume) :
    Status × Volume :=
  let b1 := fill v.block.length backdrop
  let b2 := listWrite b1 0 kTypeGuid
  let g0 := fill GUID_LEN guidRand
  let g1 := g0.set 6 (g0.getD 6 0 % 16 + 64)
  let g2 := g1.set 8 (g1.getD 8 0 % 64 + 128)
  let b3 := listWrite b2 GUID_LEN g2
  match Configure kDefaultVersion { v with block := b3, guid := g2 } with
  | (Status.ok, v1) =>
    let b4 := listWrite v1.block (GUID_LEN + GUID_LEN) (be32enc kDefaultVersion)
    (Status.ok,
     { v1 with
       block := b4,
       data_key := fill v1.data_key.length dkRand,
       data_iv := fill v1.data_iv.length divRand,
       header := b4.take kHeaderLen })
  | (rc, v1) => (rc, v1)

/-- `Superblock::SealBlock` (lines 575-592): append `data_key_` and `data_iv_`
into the plaintext, derive the slot keys, AEAD-seal with the header prefix as
AD, and copy the ciphertext into the block at the slot offset. -/
def SealBlock (key : Bytes) (slot : Nat) (v : Volume) : Status × Volume :=
  let off := kHeaderLen + v.slot_len * slot
  let ptext := v.data_key ++ v.data_iv
  match DeriveSlotKeys key slot v with
  | (Status.ok, v1) =>
    let ctext := aeadSeal v1.wrap_key v1.wrap_iv v1.header ptext
    (Status.ok, { v1 with block := listWrite v1.block off ctext })
  | (rc, v1) => (rc, v1)

/-- `Superblock::OpenBlock` (lines 612-656).  The type GUID is checked, the
instance GUID saved, the version read.  The source then tests
`(rc != Configure(Version(ntohl(version)))) != ZX_OK` (and the same shape for
`DeriveSlotKeys`) with `rc == ZX_OK` at that point, so when `Configure` (or
`DeriveSlotKeys`) fails the function returns `rc`, which is still `ZX_OK`:
the embedding reproduces those early `(Status.ok, _)` returns faithfully.
Otherwise the slot ciphertext is AEAD-opened with the header prefix as AD and
split into `data_iv_` then `data_key_` from the tail. -/
def OpenBlock (key : Bytes) (slot : Nat) (v : Volume) : Status × Volume :=
  if seg v.block 0 GUID_LEN ≠ kTypeGuid then (Status.errNotSupported, v)
  else
    let g := seg v.block GUID_LEN GUID_LEN
    let version := be32dec (seg v.block (GUID_LEN + GUID_LEN) 4)
    let cfg := Configure version { v with guid := g }
    if cfg.1 ≠ Status.ok then (Status.ok, cfg.2)
    else
      let drv := DeriveSlotKeys key slot cfg.2
      if drv.1 ≠ Status.ok then (Status.ok, drv.2)
      else
        let v2 := drv.2
        let ctext := seg v2.block (kHeaderLen + v2.slot_len * slot) v2.slot_len
        let v3 := { v2 with header := seg v2.block 0 kHeaderLen }
        match aeadOpen v3.wrap_key v3.wrap_iv v3.header ctext with
        | none => (Status.errAccessDenied, v3)
        | some ptext =>
          if ptext.length < v3.data_iv.length then (Status.errInvalidArgs, v3)
          else
            let div2 := ptext.drop (ptext.length - v3.data_iv.length)
            let rest := ptext.take (ptext.length - v3.data_iv.length)
            if rest.length < v3.data_key.length then (Status.errInvalidArgs, v3)
            else
              let dk2 := rest.drop (rest.length - v3.data_key.length)
              let rest2 := rest.take (rest.length - v3.data_key.length)
              let v4 := { v3 with data_iv := div2, data_key := dk2 }
              if rest2.length ≠ 0 then (Status.errInternal, v4)
              else (Status.ok, v4)

/-- The loop body of `Superblock::CommitBlock` (lines 562-571) over the
location trace: read each location (best effort), skip the write when the
read succeeded and the on-disk bytes already equal the saved copy, otherwise
restore `block_` from the copy and write it (write errors are only logged).
The final `Nat` counts write attempts. -/
def commitLoop (copy : Bytes) : List Nat → Volume → Disk → Nat → Volume × Disk × Nat
  | [], v, d, w => (v, d, w)
  | off :: rest, v, d, w =>
    let v0 := { v with offset := off }
    let v1 := if d.readOk off then { v0 with block := fill v0.block.length (d.mem off) } else v0
    if d.readOk off ∧ v1.block = copy then commitLoop copy rest v1 d w
    else
      let v2 := { v1 with block := copy }
      if d.writeOk off then commitLoop copy rest v2 (diskWrite d off copy) (w + 1)
      else commitLoop copy rest v2 d (w + 1)

/-- `Superblock::CommitBlock` (lines 554-573): snapshot `block_`, then run the
read-compare-write loop over every location; the function itself returns
`ZX_OK`. -/
def CommitBlock (fuel : Nat) (v : Volume) (d : Disk) : Status × Volume × Disk × Nat :=
  let copy := v.block
  let ls := (locations fuel v.block.length v.fvm_slice_size v.fvm_vslice_count).1
  let r := commitLoop copy ls v d 0
  (Status.ok, r.1, r.2.1, r.2.2)

/-- The loop of the private `Superblock::Open` (lines 594-610): for each
location, read and attempt `OpenBlock`; on the first success immediately
return `CommitBlock`'s result; if every location fails, return
`ZX_ERR_ACCESS_DENIED`. -/
def openLoop (key : Bytes) (slot fuel : Nat) :
    List Nat → Volume → Disk → Status × Volume × Disk
  | [], v, d => (Status.errAccessDenied, v, d)
  | off :: rest, v, d =>
    let v0 := { v with offset := off }
    if d.readOk off then
      let v1 := { v0 with block := fill v0.block.length (d.mem off) }
      match OpenBlock key slot v1 with
      | (Status.ok, v2) =>
        let r := CommitBlock fuel v2 d
        (r.1, r.2.1, r.2.2.1)
      | (_, v2) => openLoop key slot fuel rest v2 d
    else openLoop key slot fuel rest v0 d

/-- The private `Superblock::Open(key, slot)`: iterate the locations with the
open-then-commit loop. -/
def OpenAny (key : Bytes) (slot fuel : Nat) (v : Volume) (d : Disk) :
    Status × Volume × Disk :=
  openLoop key slot fuel
    (locations fuel v.block.length v.fvm_slice_size v.fvm_vslice_count).1 v d

/-- The write loop of `Superblock::Shred` (lines 225-229): write the
randomized block to each location, returning the first write error. -/
def shredLoop : List Nat → Volume → Disk → Status × Volume × Disk
  | [], v, d => (Status.ok, v, d)
  | off :: rest, v, d =>
    let v0 := { v with offset := off }
    if d.writeOk off then shredLoop rest v0 (diskWrite d off v0.block)
    else (Status.errIO, v0, d)

/-- `Superblock::Shred` (lines 214-233): require an initialized block buffer,
randomize it, write it to every location (stopping with the error at the
first failed write), then `Reset` and return `ZX_OK`. -/
def Shred (rand : Bytes) (fuel : Nat) (v : Volume) (d : Disk) :
    Status × Volume × Disk :=
  if v.block = [] then (Status.errBadState, v, d)
  else
    let v1 := { v with block := fill v.block.length rand }
    let ls := (locations fuel v1.block.length v1.fvm_slice_size v1.fvm_vslice_count).1
    match shredLoop ls v1 d with
    | (Status.ok, v2, d2) => (Status.ok, Reset v2, d2)
    | r => r

/-- `Superblock::Enroll` (lines 173-190): reject `slot >= kNumSlots`, require
an initialized block buffer, then `SealBlock` and `CommitBlock`. -/
def Enroll (key : Bytes) (slot fuel : Nat) (v : Volume) (d : Disk) :
    Status × Volume × Disk :=
  if kNumSlots ≤ slot then (Status.errInvalidArgs, v, d)
  else if v.block = [] then (Status.errBadState, v, d)
  else
    match SealBlock key slot v with
    | (Status.ok, v1) =>
      let r := CommitBlock fuel v1 d
      (r.1, r.2.1, r.2.2.1)
    | (rc, v1) => (rc, v1, d)

/-- `Superblock::Revoke` (lines 192-212): reject `slot >= kNumSlots`, require
an initialized block buffer, overwrite the slot with random bytes and commit. -/
def Revoke (slot : Nat) (rand : Bytes) (fuel : Nat) (v : Volume) (d : Disk) :
    Status × Volume × Disk :=
  if kNumSlots ≤ slot then (Status.errInvalidArgs, v, d)
  else if v.block = [] then (Status.errBadState, v, d)
  else
    let off := kHeaderLen + v.slot_len * slot
    let v1 := { v with block := listWrite v.block off (fill v.slot_len rand) }
    let r := CommitBlock fuel v1 d
    (r.1, r.2.1, r.2.2.1)

/-- `Superblock::GetInfo` (lines 260-273): `ZX_ERR_BAD_STATE` without an
initialized block buffer, otherwise copy out the geometry and return `ZX_OK`. -/
def GetInfo (v : Volume) : Status :=
  if v.block = [] then Status.errBadState else Status.ok

/-- `block_info_t` as returned by `IOCTL_BLOCK_GET_INFO`. -/
structure BlockInfo where
  block_size : Nat
  block_count : Nat
  deriving DecidableEq

/-- `fvm_info_t` as returned by `IOCTL_BLOCK_FVM_QUERY`. -/
structure FvmInfo where
  slice_size : Nat
  vslice_count : Nat
  deriving DecidableEq

/-- The `query_response_t` fields `Init` inspects: `count`,
`vslice_range[0].count` and `vslice_range[0].allocated`. -/
structure VsliceResponse where
  count : Nat
  range_count : Nat
  allocated : Bool
  deriving DecidableEq

/-- The responses of the backing device to the ioctls issued by `Init`;
a non-`ok` status models a negative return code. -/
structure DeviceResponses where
  blockInfoStatus : Status
  blockInfo : BlockInfo
  fvmStatus : Status
  fvmInfo : FvmInfo
  vsliceStatus : Status
  vslice : VsliceResponse
  extendStatus : Status
  deriving DecidableEq

/-- Unsigned 64-bit subtraction (wraps modulo `2 ^ 64`). -/
def sub64 (a b : Nat) : Nat := (a + U64 - b % U64) % U64

/-- The tail of `Superblock::Init` (lines 403-407): subtract the two reserved
slices from the counts and return the initialized geometry. -/
def initFinish (v0 : Volume) (bs bc ssize vcount : Nat) (hasFvm : Bool) :
    Status × Volume :=
  (Status.ok,
   { v0 with
     blk_block_size := bs,
     blk_block_count := sub64 bc (ssize / bs * 2),
     fvm_slice_size := ssize,
     fvm_vslice_count := vcount - 2,
     has_fvm := hasFvm,
     block := List.replicate bs 0 })

/-- The FVM-query part of `Superblock::Init` (lines 340-401), after the block
size and count have been page-aligned to `bs`/`bc`. -/
def initFvm (dev : DeviceResponses) (v0 : Volume) (bs bc : Nat) : Status × Volume :=
  let reserved := bs * kReservedPairs
  match dev.fvmStatus with
  | Status.ok =>
    if dev.fvmInfo.slice_size < reserved ∨ dev.fvmInfo.vslice_count < 2 then
      (Status.errNoSpace, Reset v0)
    else if dev.vsliceStatus ≠ Status.ok then (dev.vsliceStatus, Reset v0)
    else if dev.vslice.count = 0 ∨ dev.vslice.range_count = 0 then
      (Status.errInternal, Reset v0)
    else if ¬ dev.vslice.allocated ∧ dev.extendStatus ≠ Status.ok then
      (dev.extendStatus, Reset v0)
    else initFinish v0 bs bc dev.fvmInfo.slice_size dev.fvmInfo.vslice_count true
  | Status.errNotSupported =>
    if bc / 2 < kReservedPairs then (Status.errNoSpace, Reset v0)
    else initFinish v0 bs bc reserved (bc / kReservedPairs) false
  | st => (st, Reset v0)

/-- `Superblock::Init` (lines 309-408): `Reset`, install a scoped cleanup that
re-runs `Reset` on every error exit, query and page-align the block geometry,
then dispatch on the FVM query.  On success the cleanup is cancelled. -/
def Init (dev : DeviceResponses) (v : Volume) : Status × Volume :=
  let v0 := Reset v
  if dev.blockInfoStatus ≠ Status.ok then (dev.blockInfoStatus, Reset v0)
  else
    let bs0 := dev.blockInfo.block_size
    let bc0 := dev.blockInfo.block_count
    if bs0 < PAGE_SIZE then
      if PAGE_SIZE % bs0 ≠ 0 then (Status.errNotSupported, Reset v0)
      else initFvm dev v0 PAGE_SIZE (bc0 / (PAGE_SIZE / bs0))
    else
      if bs0 % PAGE_SIZE ≠ 0 then (Status.errNotSupported, Reset v0)
      else initFvm dev v0 bs0 bc0

/-- The static `Superblock::Create` (lines 132-147): `Init`, `CreateBlock`,
`SealBlock(key, 0)`, `CommitBlock`. -/
def Create (dev : DeviceResponses) (key backdrop guidRand dkRand divRand : Bytes)
    (fuel : Nat) (v : Volume) (d : Disk) : Status × Volume × Disk :=
  match Init dev v with
  | (Status.ok, v1) =>
    match CreateBlock backdrop guidRand dkRand divRand v1 with
    | (Status.ok, v2) =>
      match SealBlock key 0 v2 with
      | (Status.ok, v3) =>
        let r := CommitBlock fuel v3 d
        (r.1, r.2.1, r.2.2.1)
      | (rc, v3) => (rc, v3, d)
    | (rc, v2) => (rc, v2, d)
  | (rc, v1) => (rc, v1, d)

/-- The static `Superblock::Open` (lines 149-171): validate the slot, `Init`,
then the private `Open` (`OpenAny`). -/
def OpenVolume (dev : DeviceResponses) (key : Bytes) (slot fuel : Nat)
    (v : Volume) (d : Disk) : Status × Volume × Disk :=
  if kNumSlots ≤ slot then (Status.errInvalidArgs, v, d)
  else
    match Init dev v with
    | (Status.ok, v1) => OpenAny key slot fuel v1 d
    | (rc, v1) => (rc, v1, d)

/-- Raw (non-FVM) backing device of scenario S1: `block_size = 4096`,
`block_count = 64`, no FVM support. -/
def dev64 : DeviceResponses :=
  { blockInfoStatus := Status.ok, blockInfo := ⟨4096, 64⟩,
    fvmStatus := Status.errNotSupported, fvmInfo := ⟨0, 0⟩,
    vsliceStatus := Status.ok, vslice := ⟨1, 1, true⟩,
    extendStatus := Status.ok }

/-- An FVM backing device whose slices hold four 4096-byte blocks each
(`slice_size = 16384 > kReservedPairs * block_size`), with 3 vslices. -/
def devFvm : DeviceResponses :=
  { blockInfoStatus := Status.ok, blockInfo := ⟨4096, 1000⟩,
    fvmStatus := Status.ok, fvmInfo := ⟨16384, 3⟩,
    vsliceStatus := Status.ok, vslice := ⟨1, 1, true⟩,
    extendStatus := Status.ok }

/-! ## List helper lemmas -/

theorem take_app_of_length (l1 l2 : Bytes) (n : Nat) (h : l1.length = n) :
    (l1 ++ l2).take n = l1 := by
  subst h
  induction l1 with
  | nil => simp
  | cons a t ih => simp [ih]

theorem drop_app_of_length (l1 l2 : Bytes) (n : Nat) (h : l1.length = n) :
    (l1 ++ l2).drop n = l2 := by
  subst h
  induction l1 with
  | nil => simp
  | cons a t ih => simp [ih]

theorem take_app_le (l1 l2 : Bytes) (n : Nat) (h : n ≤ l1.length) :
    (l1 ++ l2).take n = l1.take n := by
  induction l1 generalizing n with
  | nil =>
    have : n = 0 := by simpa using h
    subst this; simp
  | cons a t ih =>
    cases n with
    | zero => simp
    | succ m => simp only [List.cons_append, List.take_succ_cons]; rw [ih]; simpa using h

theorem drop_app_le (l1 l2 : Bytes) (o : Nat) (h : o ≤ l1.length) :
    (l1 ++ l2).drop o = l1.drop o ++ l2 := by
  induction l1 generalizing o with
  | nil =>
    have : o = 0 := by simpa using h
    subst this; simp
  | cons a t ih =>
    cases o with
    | zero => simp
    | succ m => simp only [List.cons_append, List.drop_succ_cons]; rw [ih]; simpa using h

theorem drop_take_comm (l : Bytes) (m o : Nat) :
    (l.take m).drop o = (l.drop o).take (m - o) := by
  induction l generalizing m o with
  | nil => simp
  | cons a t ih =>
    cases m with
    | zero => simp
    | succ m2 =>
      cases o with
      | zero => simp
      | succ o2 => simpa using ih m2 o2

theorem length_fill (n : Nat) (r : Bytes) : (fill n r).length = n := by
  simp [fill]

theorem fill_eq (n : Nat) (r : Bytes) (h : r.length = n) : fill n r = r := by
  unfold fill
  exact take_app_of_length _ _ _ h

theorem seg_zero (l : Bytes) (n : Nat) : seg l 0 n = l.take n := by
  simp [seg]

theorem listWrite_length (dst : Bytes) (off : Nat) (src : Bytes)
    (h : off + src.length ≤ dst.length) :
    (listWrite dst off src).length = dst.length := by
  simp [listWrite]
  omega

theorem seg_listWrite_self (dst : Bytes) (off : Nat) (src : Bytes)
    (h : off + src.length ≤ dst.length) :
    seg (listWrite dst off src) off src.length = src := by
  have h1 : (dst.take off).length = off := by simp; omega
  unfold seg listWrite
  rw [List.append_assoc, drop_app_of_length _ _ _ h1, take_app_of_length _ _ _ rfl]

theorem seg_app_left (l1 l2 : Bytes) (o n : Nat) (h : o + n ≤ l1.length) :
    seg (l1 ++ l2) o n = seg l1 o n := by
  unfold seg
  rw [drop_app_le l1 l2 o (by omega), take_app_le _ _ n (by simp; omega)]

theorem seg_take (l : Bytes) (m o n : Nat) (h : o + n ≤ m) :
    seg (l.take m) o n = seg l o n := by
  unfold seg
  rw [drop_take_comm, List.take_take, Nat.min_eq_left (by omega)]

theorem seg_listWrite_below (dst : Bytes) (off : Nat) (src : Bytes) (o n : Nat)
    (h1 : o + n ≤ off) (h2 : off ≤ dst.length) :
    seg (listWrite dst off src) o n = seg dst o n := by
  unfold listWrite
  rw [List.append_assoc, seg_app_left _ _ o n (by simp; omega),
    seg_take dst off o n h1]

/-! ## Iterator lemmas (claim C4) -/

theorem locsAux_succ (fuel blockLen s vc off : Nat) :
    locsAux (fuel + 1) blockLen s vc off =
      match nextOffset blockLen s vc off with
      | (Status.errNext, off2) =>
        ((off2 :: (locsAux fuel blockLen s vc off2).1),
          (locsAux fuel blockLen s vc off2).2)
      | (_, _) => ([], true) := by
  simp only [locsAux]

/-- C4 (counterexample): on an FVM-backed volume produced by `Init` whose
slice size is four blocks (4 x 4096 = 16384 > kReservedPairs x 4096), the
iterator yields 8 offsets, not `2 * kReservedPairs = 4`, refuting the claim
as stated for every initialized volume with `slice_size != 0`. -/
theorem locations_fvm_eight_offsets_cex :
    (Init devFvm resetVolume).1 = Status.ok ∧
    (Init devFvm resetVolume).2.fvm_slice_size = 16384 ∧
    (16384 : Nat) ≠ 0 ∧
    (Init devFvm resetVolume).2.fvm_vslice_count = 1 ∧
    (Init devFvm resetVolume).2.block.length = 4096 ∧
    locations 32 4096 16384 1 =
      ([0, 4096, 8192, 12288, 32768, 36864, 40960, 45056], true) ∧
    ¬ ([0, 4096, 8192, 12288, 32768, 36864, 40960, 45056] : List Nat).length =
        2 * kReservedPairs := by
  refine ⟨rfl, rfl, by decide, rfl, ?_, by decide, by decide⟩
  rw [show (Init devFvm resetVolume).2.block = List.replicate 4096 0 from rfl,
    List.length_replicate]

theorem locsAux_next (fuel blockLen s vc off off2 : Nat)
    (h : nextOffset blockLen s vc off = (Status.errNext, off2)) :
    locsAux (fuel + 1) blockLen s vc off =
      ((off2 :: (locsAux fuel blockLen s vc off2).1),
        (locsAux fuel blockLen s vc off2).2) := by
  rw [locsAux_succ, h]

theorem locsAux_stop (fuel blockLen s vc off o2 : Nat)
    (h : nextOffset blockLen s vc off = (Status.errStop, o2)) :
    locsAux (fuel + 1) blockLen s vc off = ([], true) := by
  rw [locsAux_succ, h]

/-- C4 (amended): when the slice size is exactly `kReservedPairs` blocks -
which is how `Init` synthesizes it for every non-FVM device - the iterator
yields exactly the `kReservedPairs` block offsets of the first reserved slice
followed by the `kReservedPairs` block offsets of the last reserved slice,
`2 * kReservedPairs` locations in all, and then terminates. -/
theorem locations_reserved_pairs (b vc fuel : Nat) (hb : 0 < b) (hfuel : 4 ≤ fuel)
    (hov : (vc + 2) * (kReservedPairs * b) < U64) :
    locations fuel b (kReservedPairs * b) vc =
      ([0, b, (vc + 1) * (kReservedPairs * b), (vc + 1) * (kReservedPairs * b) + b],
        true) := by
  have hs : kReservedPairs * b = 2 * b := rfl
  rw [hs] at hov ⊢
  set s := 2 * b with hsdef
  have hU : U64 = 18446744073709551616 := rfl
  have hblt : b < s := by omega
  have hs0 : ¬ s = 0 := by omega
  have t1 : s ≤ (vc + 2) * s := Nat.le_mul_of_pos_left s (by omega)
  have t2 : 2 * s ≤ (vc + 2) * s := Nat.mul_le_mul_right s (by omega)
  have tv : vc + 2 ≤ (vc + 2) * s := Nat.le_mul_of_pos_right (vc + 2) (by omega)
  have hXatom : (vc + 2) * s = (vc + 1) * s + s := by ring
  have hsU : s < U64 := by omega
  have hbU : b < U64 := by omega
  have hvc1U : vc + 1 < U64 := by omega
  have hv1sU : (vc + 1) * s < U64 := by omega
  have hv1sbU : (vc + 1) * s + b < U64 := by omega
  have n1 : nextOffset b s vc 0 = (Status.errNext, b) := by
    simp only [nextOffset]
    rw [Nat.zero_add, Nat.mod_eq_of_lt hbU, Nat.mod_eq_of_lt hblt,
      if_pos ⟨by omega, hblt⟩]
  have n2 : nextOffset b s vc b = (Status.errNext, (vc + 1) * s) := by
    simp only [nextOffset]
    have hbb : b + b = s := by omega
    rw [hbb, Nat.mod_eq_of_lt hsU, Nat.mod_self, if_neg (by simp),
      if_pos (le_refl s), Nat.mod_eq_of_lt hvc1U, Nat.mod_eq_of_lt hv1sU]
  have m7 : ((vc + 1) * s + b) % s = b := by
    rw [Nat.add_comm ((vc + 1) * s) b, Nat.mul_comm (vc + 1) s,
      Nat.add_mul_mod_self_left, Nat.mod_eq_of_lt hblt]
  have n3 : nextOffset b s vc ((vc + 1) * s) = (Status.errNext, (vc + 1) * s + b) := by
    simp only [nextOffset]
    rw [Nat.mod_eq_of_lt hv1sbU, m7, if_pos ⟨by omega, hblt⟩]
  have m9 : (vc + 2) * s % s = 0 := by
    rw [Nat.mul_comm]
    exact Nat.mul_mod_right s (vc + 2)
  have n4 : nextOffset b s vc ((vc + 1) * s + b) = (Status.errStop, (vc + 2) * s) := by
    simp only [nextOffset]
    have e1 : (vc + 1) * s + b + b = (vc + 2) * s := by omega
    rw [e1, Nat.mod_eq_of_lt hov, m9, if_neg (by simp), if_neg (by omega)]
  obtain ⟨m, rfl⟩ : ∃ m, fuel = m + 1 + 1 + 1 + 1 := ⟨fuel - 4, by omega⟩
  have l4 : locsAux (m + 1) b s vc ((vc + 1) * s + b) = ([], true) :=
    locsAux_stop m b s vc ((vc + 1) * s + b) ((vc + 2) * s) n4
  have l3 : locsAux (m + 1 + 1) b s vc ((vc + 1) * s) =
      ([(vc + 1) * s + b], true) := by
    rw [locsAux_next (m + 1) b s vc ((vc + 1) * s) ((vc + 1) * s + b) n3, l4]
  have l2 : locsAux (m + 1 + 1 + 1) b s vc b =
      ([(vc + 1) * s, (vc + 1) * s + b], true) := by
    rw [locsAux_next (m + 1 + 1) b s vc b ((vc + 1) * s) n2, l3]
  have l1 : locsAux (m + 1 + 1 + 1 + 1) b s vc 0 =
      ([b, (vc + 1) * s, (vc + 1) * s + b], true) := by
    rw [locsAux_next (m + 1 + 1 + 1) b s vc 0 b n1, l2]
  simp only [locations]
  rw [if_neg hs0, l1]

/-- Witness for `locations_reserved_pairs` at the geometry `Init` produces for
the raw 4096 x 64 device of scenario S1. -/
theorem locations_reserved_pairs_witness :
    locations 16 4096 (kReservedPairs * 4096) 30 =
      ([0, 4096, 253952, 258048], true) := by
  have h := locations_reserved_pairs 4096 30 16 (by decide) (by decide) (by decide)
  exact h.trans (by decide)

/-! ## Configure (claim C7) -/

/-- C7: after every successful `Configure version` call the slots-fit
invariant `kHeaderLen + kNumSlots * slot_len <= block_size` holds, and when
the slots would not fit in one block for the known version, `Configure`
returns `ZX_ERR_NOT_SUPPORTED`. -/
theorem configure_slots_fit (version : Nat) (v : Volume) :
    ((Configure version v).1 = Status.ok →
      kHeaderLen + kNumSlots * (Configure version v).2.slot_len ≤
        (Configure version v).2.blk_block_size) ∧
    (version = kAES256_XTS_SHA256 →
      v.blk_block_size <
        kHeaderLen + kNumSlots * (kDataKeyLen + kDataIvLen + kAeadTagLen) →
      (Configure version v).1 = Status.errNotSupported) := by
  constructor
  · intro h
    by_cases hv : version = kAES256_XTS_SHA256
    · simp only [Configure, if_pos hv] at h ⊢
      by_cases hbs : v.blk_block_size <
          kHeaderLen + kNumSlots * (kDataKeyLen + kDataIvLen + kAeadTagLen)
      · rw [if_pos (by simpa using hbs)] at h
        simp at h
      · rw [if_neg (by simpa using hbs)]
        simpa using Nat.le_of_not_lt hbs
    · rw [Configure, if_neg hv] at h
      simp at h
  · intro hv hbs
    simp only [Configure, if_pos hv]
    rw [if_pos (by simpa using hbs)]

/-- Witness for `configure_slots_fit`: a 4096-byte block accepts version 1
and satisfies the invariant; a 100-byte block is rejected as unsupported. -/
theorem configure_slots_fit_witness :
    (kHeaderLen + kNumSlots *
        (Configure kAES256_XTS_SHA256
          { resetVolume with blk_block_size := 4096 }).2.slot_len ≤
      (Configure kAES256_XTS_SHA256
        { resetVolume with blk_block_size := 4096 }).2.blk_block_size) ∧
    (Configure kAES256_XTS_SHA256 { resetVolume with blk_block_size := 100 }).1 =
      Status.errNotSupported :=
  ⟨(configure_slots_fit kAES256_XTS_SHA256
      { resetVolume with blk_block_size := 4096 }).1 (by decide),
   (configure_slots_fit kAES256_XTS_SHA256
      { resetVolume with blk_block_size := 100 }).2 rfl (by decide)⟩

/-! ## Init error handling (claims C8, C9) -/

theorem initFvm_error_snd (dev : DeviceResponses) (v0 : Volume) (bs bc : Nat)
    (h : (initFvm dev v0 bs bc).1 ≠ Status.ok) :
    (initFvm dev v0 bs bc).2 = Reset v0 := by
  cases hf : dev.fvmStatus <;> simp only [initFvm, hf] at h ⊢ <;>
    try split_ifs at h ⊢
  all_goals first | rfl | exact absurd rfl h

theorem init_error_snd (dev : DeviceResponses) (v : Volume)
    (h : (Init dev v).1 ≠ Status.ok) : (Init dev v).2 = Reset (Reset v) := by
  simp only [Init] at h ⊢
  split_ifs at h ⊢ <;> first | rfl | exact initFvm_error_snd dev (Reset v) _ _ h

/-- C8: whenever `Init` fails, the scoped cleanup has run `Reset`, leaving
every field of the Volume (geometry, block buffer, instance GUID, wrap and
data keys and IVs, algorithm ids, iterator offset) in the zeroed
uninitialized state. -/
theorem init_error_resets (dev : DeviceResponses) (v : Volume)
    (h : (Init dev v).1 ≠ Status.ok) :
    (Init dev v).2.blk_block_size = 0 ∧ (Init dev v).2.blk_block_count = 0 ∧
    (Init dev v).2.fvm_slice_size = 0 ∧ (Init dev v).2.fvm_vslice_count = 0 ∧
    (Init dev v).2.has_fvm = false ∧ (Init dev v).2.block = [] ∧
    (Init dev v).2.offset = U64 - 1 ∧ (Init dev v).2.guid = [] ∧
    (Init dev v).2.aead = AeadAlg.uninitialized ∧ (Init dev v).2.wrap_key = [] ∧
    (Init dev v).2.wrap_iv = [] ∧ (Init dev v).2.cipher = CipherAlg.uninitialized ∧
    (Init dev v).2.data_key = [] ∧ (Init dev v).2.data_iv = [] ∧
    (Init dev v).2.slot_len = 0 ∧ (Init dev v).2.digest = DigestAlg.uninitialized := by
  rw [init_error_snd dev v h]
  exact ⟨rfl, rfl, rfl, rfl, rfl, rfl, rfl, rfl, rfl, rfl, rfl, rfl, rfl, rfl,
    rfl, rfl⟩

/-- A device whose block-info ioctl fails with an I/O error. -/
def devErr : DeviceResponses :=
  { dev64 with blockInfoStatus := Status.errIO }

/-- Witness for `init_error_resets` at a device whose block-info ioctl fails. -/
theorem init_error_resets_witness :
    (Init devErr resetVolume).1 ≠ Status.ok ∧
    (Init devErr resetVolume).2.block = [] ∧
    (Init devErr resetVolume).2.data_key = [] ∧
    (Init devErr resetVolume).2.blk_block_size = 0 :=
  ⟨by decide,
   (init_error_resets devErr resetVolume (by decide)).2.2.2.2.2.1,
   (init_error_resets devErr resetVolume (by decide)).2.2.2.2.2.2.2.2.2.2.2.2.1,
   (init_error_resets devErr resetVolume (by decide)).1⟩

/-- A raw device of 2 blocks: after page alignment `block_count / 2 = 1` is
below `kReservedPairs`. -/
def devTiny : DeviceResponses :=
  { dev64 with blockInfo := ⟨4096, 2⟩ }

/-- C9 (counterexample): on a non-FVM device whose page-aligned block count
satisfies `block_count / 2 < kReservedPairs`, `Init` fails with
`ZX_ERR_NO_SPACE` (superblock.cpp line 389), not `ZX_ERR_NOT_SUPPORTED` as
the claim states. -/
theorem init_nonfvm_too_small_cex :
    (Init devTiny resetVolume).1 = Status.errNoSpace ∧
    Status.errNoSpace ≠ Status.errNotSupported ∧
    devTiny.fvmStatus = Status.errNotSupported ∧
    devTiny.blockInfo.block_count / 2 < kReservedPairs := by
  decide

/-- The page-aligned block count computed by `Init` (lines 322-334). -/
def pagedCount (dev : DeviceResponses) : Nat :=
  if dev.blockInfo.block_size < PAGE_SIZE then
    dev.blockInfo.block_count / (PAGE_SIZE / dev.blockInfo.block_size)
  else dev.blockInfo.block_count

/-- C9 (amended): on a backing device without FVM support whose page-aligned
block count satisfies `block_count / 2 < kReservedPairs`, `Init` fails with
`ZX_ERR_NO_SPACE` and leaves the volume reset. -/
theorem init_nonfvm_too_small_no_space (dev : DeviceResponses) (v : Volume)
    (h1 : dev.blockInfoStatus = Status.ok)
    (h2 : dev.fvmStatus = Status.errNotSupported)
    (h3 : dev.blockInfo.block_size < PAGE_SIZE →
      PAGE_SIZE % dev.blockInfo.block_size = 0)
    (h4 : PAGE_SIZE ≤ dev.blockInfo.block_size →
      dev.blockInfo.block_size % PAGE_SIZE = 0)
    (h5 : pagedCount dev / 2 < kReservedPairs) :
    Init dev v = (Status.errNoSpace, Reset (Reset v)) := by
  simp only [Init, h1]
  rw [if_neg (by simp)]
  by_cases hlt : dev.blockInfo.block_size < PAGE_SIZE
  · rw [if_pos hlt, if_neg (by simpa using h3 hlt)]
    simp only [initFvm, h2]
    unfold pagedCount at h5
    rw [if_pos hlt] at h5
    rw [if_pos h5]
  · rw [if_neg hlt, if_neg (by simpa using h4 (Nat.le_of_not_lt hlt))]
    simp only [initFvm, h2]
    unfold pagedCount at h5
    rw [if_neg hlt] at h5
    rw [if_pos h5]

/-- Witness for `init_nonfvm_too_small_no_space` at the 2-block raw device. -/
theorem init_nonfvm_too_small_no_space_witness :
    Init devTiny resetVolume = (Status.errNoSpace, Reset (Reset resetVolume)) :=
  init_nonfvm_too_small_no_space devTiny resetVolume rfl rfl
    (by decide) (by decide) (by decide)

/-! ## The OpenBlock version-check bug (claim C3) -/

/-- A block whose first 16 bytes are `kTypeGuid` but whose big-endian version
field decodes to the unknown version 2. -/
def badVersionBlock : Bytes := kTypeGuid ++ List.replicate GUID_LEN 7 ++ [0, 0, 0, 2]

/-- C3 (code bug): on a block with a valid type GUID but an unknown version,
`Configure` fails with `ZX_ERR_NOT_SUPPORTED`, yet `OpenBlock` returns
`ZX_OK`: the source tests `(rc != Configure(...)) != ZX_OK` with
`rc == ZX_OK`, so the failure is converted into an early successful return
without derived keys instead of being propagated. -/
theorem openBlock_unknown_version_returns_ok_bug :
    (OpenBlock [] 0
        { resetVolume with blk_block_size := 4096, block := badVersionBlock }).1 =
      Status.ok ∧
    seg badVersionBlock 0 GUID_LEN = kTypeGuid ∧
    be32dec (seg badVersionBlock (GUID_LEN + GUID_LEN) 4) = 2 ∧
    (Configure 2
        { resetVolume with blk_block_size := 4096, block := badVersionBlock }).1 =
      Status.errNotSupported := by
  decide

/-! ## CommitBlock lemmas (claim C5) -/

theorem commitLoop_fields (copy : Bytes) (ls : List Nat) (v : Volume) (d : Disk)
    (w : Nat) :
    (commitLoop copy ls v d w).1.blk_block_size = v.blk_block_size ∧
    (commitLoop copy ls v d w).1.fvm_slice_size = v.fvm_slice_size ∧
    (commitLoop copy ls v d w).1.fvm_vslice_count = v.fvm_vslice_count ∧
    (commitLoop copy ls v d w).2.1.readOk = d.readOk ∧
    (commitLoop copy ls v d w).2.1.writeOk = d.writeOk ∧
    (commitLoop copy ls v d w).1.data_key = v.data_key ∧
    (commitLoop copy ls v d w).1.data_iv = v.data_iv := by
  induction ls generalizing v d w with
  | nil => exact ⟨rfl, rfl, rfl, rfl, rfl, rfl, rfl⟩
  | cons off rest ih =>
    simp only [commitLoop]
    split_ifs <;> simpa [diskWrite] using ih _ _ _


theorem commitLoop_block (copy : Bytes) (ls : List Nat) (v : Volume) (d : Disk)
    (w : Nat) (hv : v.block = copy) :
    (commitLoop copy ls v d w).1.block = copy := by
  induction ls generalizing v d w with
  | nil => simpa [commitLoop] using hv
  | cons off rest ih =>
    simp only [commitLoop]
    by_cases hro : d.readOk off = true
    · rw [if_pos hro]
      by_cases heq : fill v.block.length (d.mem off) = copy
      · rw [if_pos ⟨hro, by simpa using heq⟩]
        exact ih _ _ _ (by simpa using heq)
      · rw [if_neg (fun hc => heq (by simpa using hc.2))]
        by_cases hwo : d.writeOk off = true
        · rw [if_pos hwo]
          exact ih _ _ _ rfl
        · rw [if_neg hwo]
          exact ih _ _ _ rfl
    · rw [if_neg hro, if_neg (fun hc => hro hc.1)]
      by_cases hwo : d.writeOk off = true
      · rw [if_pos hwo]
        exact ih _ _ _ rfl
      · rw [if_neg hwo]
        exact ih _ _ _ rfl

theorem commitLoop_heal (copy : Bytes) (ls : List Nat) (v : Volume) (d : Disk)
    (w : Nat) (hw : ∀ L ∈ ls, d.writeOk L = true)
    (hlen : v.block.length = copy.length) (L : Nat)
    (hL : L ∈ ls ∨ fill copy.length (d.mem L) = copy) :
    fill copy.length ((commitLoop copy ls v d w).2.1.mem L) = copy := by
  induction ls generalizing v d w with
  | nil =>
    rcases hL with h | h
    · cases h
    · simpa [commitLoop] using h
  | cons off rest ih =>
    have hwrest : ∀ x ∈ rest, d.writeOk x = true :=
      fun x hx => hw x (List.mem_cons_of_mem _ hx)
    simp only [commitLoop]
    by_cases hro : d.readOk off = true
    · rw [if_pos hro]
      by_cases heq : fill v.block.length (d.mem off) = copy
      · rw [if_pos ⟨hro, by simpa using heq⟩]
        refine ih _ _ _ hwrest (by simp [length_fill, hlen]) ?_
        rcases hL with h | h
        · rcases List.mem_cons.mp h with rfl | h
          · exact Or.inr (by rw [← hlen]; exact heq)
          · exact Or.inl h
        · exact Or.inr h
      · rw [if_neg (fun hc => heq (by simpa using hc.2))]
        rw [if_pos (hw off (List.mem_cons_self off rest))]
        refine ih _ _ _ (by simpa [diskWrite] using hwrest) (by simp) ?_
        rcases hL with h | h
        · rcases List.mem_cons.mp h with rfl | h
          · exact Or.inr (by simp [diskWrite, fill_eq])
          · exact Or.inl h
        · refine Or.inr ?_
          by_cases hoff : L = off
          · subst hoff
            simp [diskWrite, fill_eq]
          · simpa [diskWrite, hoff] using h
    · rw [if_neg hro, if_neg (fun hc => hro hc.1)]
      rw [if_pos (hw off (List.mem_cons_self off rest))]
      refine ih _ _ _ (by simpa [diskWrite] using hwrest) (by simp) ?_
      rcases hL with h | h
      · rcases List.mem_cons.mp h with rfl | h
        · exact Or.inr (by simp [diskWrite, fill_eq])
        · exact Or.inl h
      · refine Or.inr ?_
        by_cases hoff : L = off
        · subst hoff
          simp [diskWrite, fill_eq]
        · simpa [diskWrite, hoff] using h

theorem commitLoop_noop (copy : Bytes) (ls : List Nat) (v : Volume) (d : Disk)
    (w : Nat) (hr : ∀ L ∈ ls, d.readOk L = true)
    (hall : ∀ L ∈ ls, fill copy.length (d.mem L) = copy)
    (hlen : v.block.length = copy.length) :
    (commitLoop copy ls v d w).2.1 = d ∧ (commitLoop copy ls v d w).2.2 = w := by
  induction ls generalizing v w with
  | nil => exact ⟨rfl, rfl⟩
  | cons off rest ih =>
    have hro : d.readOk off = true := hr off (List.mem_cons_self off rest)
    have hfo : fill copy.length (d.mem off) = copy :=
      hall off (List.mem_cons_self off rest)
    simp only [commitLoop]
    rw [if_pos hro, if_pos ⟨hro, by simpa [hlen] using hfo⟩]
    exact ih _ _ (fun x hx => hr x (List.mem_cons_of_mem _ hx))
      (fun x hx => hall x (List.mem_cons_of_mem _ hx))
      (by simp [length_fill, hlen])

/-- C5: `CommitBlock` is idempotent and convergent: it returns `ZX_OK`; after
it returns, `block_` equals the saved copy; and running `CommitBlock` again
immediately afterwards (unchanged disk) performs zero writes and leaves the
disk untouched.  The per-location skip/restore-write behaviour is the
definition of `commitLoop`, translated from the source. -/
theorem commitBlock_converges_idempotent (fuel : Nat) (v : Volume) (d : Disk)
    (hr : ∀ L ∈ (locations fuel v.block.length v.fvm_slice_size v.fvm_vslice_count).1,
      d.readOk L = true)
    (hw : ∀ L ∈ (locations fuel v.block.length v.fvm_slice_size v.fvm_vslice_count).1,
      d.writeOk L = true) :
    (CommitBlock fuel v d).1 = Status.ok ∧
    (CommitBlock fuel v d).2.1.block = v.block ∧
    (CommitBlock fuel (CommitBlock fuel v d).2.1 (CommitBlock fuel v d).2.2.1).2.2.2 = 0 ∧
    (CommitBlock fuel (CommitBlock fuel v d).2.1 (CommitBlock fuel v d).2.2.1).2.2.1 =
      (CommitBlock fuel v d).2.2.1 := by
  set ls := (locations fuel v.block.length v.fvm_slice_size v.fvm_vslice_count).1 with hls
  have hblock := commitLoop_block v.block ls v d 0 rfl
  have hfields := commitLoop_fields v.block ls v d 0
  have hheal : ∀ L ∈ ls,
      fill v.block.length ((commitLoop v.block ls v d 0).2.1.mem L) = v.block :=
    fun L hL => commitLoop_heal v.block ls v d 0 hw rfl L (Or.inl hL)
  have hls2 : (locations fuel (commitLoop v.block ls v d 0).1.block.length
      (commitLoop v.block ls v d 0).1.fvm_slice_size
      (commitLoop v.block ls v d 0).1.fvm_vslice_count).1 = ls := by
    rw [hblock, hfields.2.1, hfields.2.2.1, ← hls]
  have hnoop := commitLoop_noop v.block ls (commitLoop v.block ls v d 0).1
    (commitLoop v.block ls v d 0).2.1 0
    (by
      intro L hL
      rw [hfields.2.2.2.1]
      exact hr L hL)
    hheal (by rw [hblock])
  refine ⟨rfl, hblock, ?_, ?_⟩
  · show (commitLoop (commitLoop v.block ls v d 0).1.block
      (locations fuel (commitLoop v.block ls v d 0).1.block.length
        (commitLoop v.block ls v d 0).1.fvm_slice_size
        (commitLoop v.block ls v d 0).1.fvm_vslice_count).1
      (commitLoop v.block ls v d 0).1 (commitLoop v.block ls v d 0).2.1 0).2.2 = 0
    rw [hls2, hblock]
    exact hnoop.2
  · show (commitLoop (commitLoop v.block ls v d 0).1.block
      (locations fuel (commitLoop v.block ls v d 0).1.block.length
        (commitLoop v.block ls v d 0).1.fvm_slice_size
        (commitLoop v.block ls v d 0).1.fvm_vslice_count).1
      (commitLoop v.block ls v d 0).1 (commitLoop v.block ls v d 0).2.1 0).2.1 =
      (commitLoop v.block ls v d 0).2.1
    rw [hls2, hblock]
    exact hnoop.1

/-- A small initialized in-memory volume (one 8-byte block per slice pair). -/
def smallVol : Volume :=
  { resetVolume with
    blk_block_size := 8, block := List.replicate 8 1,
    fvm_slice_size := 16, fvm_vslice_count := 3, slot_len := 64 }

/-- A disk whose reads and writes always succeed and that stores empty blocks. -/
def dAll : Disk :=
  { mem := fun _ => [], readOk := fun _ => true, writeOk := fun _ => true }

/-- Witness for `commitBlock_converges_idempotent` on a concrete volume and disk. -/
theorem commitBlock_converges_idempotent_witness :
    (∀ L ∈ (locations 16 smallVol.block.length smallVol.fvm_slice_size
        smallVol.fvm_vslice_count).1, dAll.readOk L = true) ∧
    (CommitBlock 16 smallVol dAll).1 = Status.ok ∧
    (CommitBlock 16 (CommitBlock 16 smallVol dAll).2.1
      (CommitBlock 16 smallVol dAll).2.2.1).2.2.2 = 0 := by
  have h := commitBlock_converges_idempotent 16 smallVol dAll (by decide) (by decide)
  exact ⟨by decide, h.1, h.2.2.1⟩

/-! ## Shred lemmas (claims C6, C10) -/

theorem shredLoop_all_ok (ls : List Nat) (v : Volume) (d : Disk)
    (hw : ∀ L ∈ ls, d.writeOk L = true) :
    (shredLoop ls v d).1 = Status.ok ∧
    (∀ L ∈ ls, (shredLoop ls v d).2.2.mem L = v.block) ∧
    (∀ L, L ∉ ls → (shredLoop ls v d).2.2.mem L = d.mem L) := by
  induction ls generalizing v d with
  | nil => exact ⟨rfl, by simp, fun L _ => rfl⟩
  | cons off rest ih =>
    have hwo : d.writeOk off = true := hw off (List.mem_cons_self off rest)
    simp only [shredLoop]
    rw [if_pos hwo]
    have ihh := ih { v with offset := off } (diskWrite d off v.block)
      (by
        intro x hx
        simpa [diskWrite] using hw x (List.mem_cons_of_mem _ hx))
    refine ⟨ihh.1, ?_, ?_⟩
    · intro L hL
      rcases List.mem_cons.mp hL with rfl | hL2
      · by_cases hLr : L ∈ rest
        · simpa using ihh.2.1 L hLr
        · rw [ihh.2.2 L hLr]
          simp [diskWrite]
      · simpa using ihh.2.1 L hL2
    · intro L hL
      rw [ihh.2.2 L (fun hx => hL (List.mem_cons_of_mem _ hx))]
      have hne : L ≠ off := fun he => hL (he ▸ List.mem_cons_self off rest)
      simp [diskWrite, hne]

theorem shredLoop_first_fail (l1 : List Nat) (off : Nat) (l2 : List Nat)
    (v : Volume) (d : Disk) (hw : ∀ L ∈ l1, d.writeOk L = true)
    (hoff : d.writeOk off = false) :
    (shredLoop (l1 ++ off :: l2) v d).1 = Status.errIO ∧
    (∀ L ∈ l1, (shredLoop (l1 ++ off :: l2) v d).2.2.mem L = v.block) ∧
    (∀ L, L ∉ l1 → (shredLoop (l1 ++ off :: l2) v d).2.2.mem L = d.mem L) := by
  induction l1 generalizing v d with
  | nil =>
    simp only [List.nil_append, shredLoop]
    rw [if_neg (by simp [hoff])]
    exact ⟨rfl, by simp, fun L _ => rfl⟩
  | cons a rest ih =>
    have hwa : d.writeOk a = true := hw a (List.mem_cons_self a rest)
    simp only [List.cons_append, shredLoop, List.append_eq]
    rw [if_pos hwa]
    have ihh := ih { v with offset := a } (diskWrite d a v.block)
      (by
        intro x hx
        simpa [diskWrite] using hw x (List.mem_cons_of_mem _ hx))
      (by simpa [diskWrite] using hoff)
    refine ⟨ihh.1, ?_, ?_⟩
    · intro L hL
      rcases List.mem_cons.mp hL with rfl | hL2
      · by_cases hLr : L ∈ rest
        · simpa using ihh.2.1 L hLr
        · rw [ihh.2.2 L hLr]
          simp [diskWrite]
      · simpa using ihh.2.1 L hL2
    · intro L hL
      rw [ihh.2.2 L (fun hx => hL (List.mem_cons_of_mem _ hx))]
      have hne : L ≠ a := fun he => hL (he ▸ List.mem_cons_self a rest)
      simp [diskWrite, hne]

/-- A disk that accepts every write except at offset 64 (the first block of
the last reserved slice of `smallVol`). -/
def dFail64 : Disk :=
  { mem := fun _ => [], readOk := fun _ => true,
    writeOk := fun o => decide (o ≠ 64) }

/-- C6 (counterexample): `Shred` on a volume whose write at the third location
(offset 64) fails returns the error immediately: the fourth location (offset
72) is left untouched even though it is writable, and the non-OK status is
returned even though the first two replicas were overwritten - refuting both
halves of the claim. -/
theorem shred_stops_at_first_write_error_cex :
    (Shred (List.replicate 8 2) 16 smallVol dFail64).1 = Status.errIO ∧
    (Shred (List.replicate 8 2) 16 smallVol dFail64).2.2.mem 0 =
      List.replicate 8 2 ∧
    dFail64.writeOk 72 = true ∧
    (Shred (List.replicate 8 2) 16 smallVol dFail64).2.2.mem 72 = [] ∧
    List.replicate 8 2 ≠ ([] : Bytes) := by
  decide

/-- C6 (amended): `Shred` randomizes `block_` and writes it to the enumerated
locations in order, but stops at the first failed `Write` and returns its
error, leaving the remaining locations untouched; only when every write
succeeds does it overwrite all replicas (and then reset state and return
`ZX_OK`). -/
theorem shred_write_all_or_stop (rand : Bytes) (fuel : Nat) (v : Volume) (d : Disk)
    (hnb : ¬ v.block = []) :
    ((∀ L ∈ (locations fuel v.block.length v.fvm_slice_size v.fvm_vslice_count).1,
        d.writeOk L = true) →
      (Shred rand fuel v d).1 = Status.ok ∧
      (∀ L ∈ (locations fuel v.block.length v.fvm_slice_size v.fvm_vslice_count).1,
        (Shred rand fuel v d).2.2.mem L = fill v.block.length rand) ∧
      (∀ L, L ∉ (locations fuel v.block.length v.fvm_slice_size v.fvm_vslice_count).1 →
        (Shred rand fuel v d).2.2.mem L = d.mem L)) ∧
    (∀ l1 off l2,
      (locations fuel v.block.length v.fvm_slice_size v.fvm_vslice_count).1 =
        l1 ++ off :: l2 →
      (∀ L ∈ l1, d.writeOk L = true) → d.writeOk off = false →
      (Shred rand fuel v d).1 = Status.errIO ∧
      (∀ L ∈ l1, (Shred rand fuel v d).2.2.mem L = fill v.block.length rand) ∧
      (∀ L, L ∉ l1 → (Shred rand fuel v d).2.2.mem L = d.mem L)) := by
  have hsh : Shred rand fuel v d =
      (match shredLoop
          (locations fuel v.block.length v.fvm_slice_size v.fvm_vslice_count).1
          { v with block := fill v.block.length rand } d with
        | (Status.ok, v2, d2) => (Status.ok, Reset v2, d2)
        | r => r) := by
    simp only [Shred, length_fill]
    rw [if_neg hnb]
  rcases hloop : shredLoop
      (locations fuel v.block.length v.fvm_slice_size v.fvm_vslice_count).1
      { v with block := fill v.block.length rand } d with ⟨st, v2, d2⟩
  rw [hloop] at hsh
  constructor
  · intro hw
    have hall := shredLoop_all_ok
      (locations fuel v.block.length v.fvm_slice_size v.fvm_vslice_count).1
      { v with block := fill v.block.length rand } d hw
    rw [hloop] at hall
    have hst : st = Status.ok := hall.1
    subst hst
    have hsh2 : Shred rand fuel v d = (Status.ok, Reset v2, d2) := hsh
    rw [hsh2]
    exact ⟨rfl, fun L hL => by simpa using hall.2.1 L hL,
      fun L hL => hall.2.2 L hL⟩
  · intro l1 off l2 hsplit hw1 hoff
    have hfail := shredLoop_first_fail l1 off l2
      { v with block := fill v.block.length rand } d hw1 hoff
    rw [← hsplit, hloop] at hfail
    have hst : st = Status.errIO := hfail.1
    subst hst
    have hsh2 : Shred rand fuel v d = (Status.errIO, v2, d2) := hsh
    rw [hsh2]
    exact ⟨rfl, fun L hL => by simpa using hfail.2.1 L hL,
      fun L hL => hfail.2.2 L hL⟩

/-- Witness for `shred_write_all_or_stop`: every write succeeds on `dAll`, so
`Shred` returns `ZX_OK` and every replica holds the randomized block. -/
theorem shred_write_all_or_stop_witness :
    (Shred (List.replicate 8 2) 16 smallVol dAll).1 = Status.ok ∧
    (Shred (List.replicate 8 2) 16 smallVol dAll).2.2.mem 0 =
      fill smallVol.block.length (List.replicate 8 2) := by
  have h := (shred_write_all_or_stop (List.replicate 8 2) 16 smallVol dAll
    (by decide)).1 (by decide)
  exact ⟨h.1, h.2.1 0 (by decide)⟩

theorem shred_ok_block_nil (rand : Bytes) (fuel : Nat) (v : Volume) (d : Disk)
    (h : (Shred rand fuel v d).1 = Status.ok) :
    (Shred rand fuel v d).2.1.block = [] := by
  by_cases hnb : v.block = []
  · rw [Shred, if_pos hnb] at h
    simp at h
  · have hsh : Shred rand fuel v d =
        (match shredLoop
            (locations fuel v.block.length v.fvm_slice_size v.fvm_vslice_count).1
            { v with block := fill v.block.length rand } d with
          | (Status.ok, v2, d2) => (Status.ok, Reset v2, d2)
          | r => r) := by
      simp only [Shred, length_fill]
      rw [if_neg hnb]
    rcases hloop : shredLoop
        (locations fuel v.block.length v.fvm_slice_size v.fvm_vslice_count).1
        { v with block := fill v.block.length rand } d with ⟨st, v2, d2⟩
    rw [hloop] at hsh
    cases st with
    | ok =>
      have hsh2 : Shred rand fuel v d = (Status.ok, Reset v2, d2) := hsh
      rw [hsh2]
      rfl
    | errNext =>
      have hsh2 : Shred rand fuel v d = (Status.errNext, v2, d2) := hsh
      rw [hsh2] at h
      simp at h
    | errStop =>
      have hsh2 : Shred rand fuel v d = (Status.errStop, v2, d2) := hsh
      rw [hsh2] at h
      simp at h
    | errInvalidArgs =>
      have hsh2 : Shred rand fuel v d = (Status.errInvalidArgs, v2, d2) := hsh
      rw [hsh2] at h
      simp at h
    | errBadState =>
      have hsh2 : Shred rand fuel v d = (Status.errBadState, v2, d2) := hsh
      rw [hsh2] at h
      simp at h
    | errNotSupported =>
      have hsh2 : Shred rand fuel v d = (Status.errNotSupported, v2, d2) := hsh
      rw [hsh2] at h
      simp at h
    | errNoSpace =>
      have hsh2 : Shred rand fuel v d = (Status.errNoSpace, v2, d2) := hsh
      rw [hsh2] at h
      simp at h
    | errAccessDenied =>
      have hsh2 : Shred rand fuel v d = (Status.errAccessDenied, v2, d2) := hsh
      rw [hsh2] at h
      simp at h
    | errIO =>
      have hsh2 : Shred rand fuel v d = (Status.errIO, v2, d2) := hsh
      rw [hsh2] at h
      simp at h
    | errInternal =>
      have hsh2 : Shred rand fuel v d = (Status.errInternal, v2, d2) := hsh
      rw [hsh2] at h
      simp at h
    | errNoMemory =>
      have hsh2 : Shred rand fuel v d = (Status.errNoMemory, v2, d2) := hsh
      rw [hsh2] at h
      simp at h

/-- C10 (counterexample): after a successful `Shred`, an `Enroll` call with
`slot = kNumSlots` returns `ZX_ERR_INVALID_ARGS`, not `ZX_ERR_BAD_STATE`: the
slot-range check precedes the initialized-state check, refuting the claim for
*every* subsequent call. -/
theorem shred_then_enroll_invalid_slot_cex :
    (Shred (List.replicate 8 2) 16 smallVol dAll).1 = Status.ok ∧
    (Enroll [] 16 16 (Shred (List.replicate 8 2) 16 smallVol dAll).2.1 dAll).1 =
      Status.errInvalidArgs ∧
    Status.errInvalidArgs ≠ Status.errBadState := by
  decide

/-- C10 (amended): after a successful `Shred` the in-memory state is reset
(`block_` freed), so every subsequent `Enroll` or `Revoke` with an in-range
slot, and every `Shred` or `GetInfo` call, returns `ZX_ERR_BAD_STATE`
(out-of-range slots still return `ZX_ERR_INVALID_ARGS` first). -/
theorem shred_then_ops_bad_state (rand r2 key : Bytes) (slot fuel fuel2 : Nat)
    (v : Volume) (d d2 : Disk)
    (hok : (Shred rand fuel v d).1 = Status.ok) (hslot : slot < kNumSlots) :
    (Enroll key slot fuel2 (Shred rand fuel v d).2.1 d2).1 = Status.errBadState ∧
    (Revoke slot r2 fuel2 (Shred rand fuel v d).2.1 d2).1 = Status.errBadState ∧
    (Shred r2 fuel2 (Shred rand fuel v d).2.1 d2).1 = Status.errBadState ∧
    GetInfo (Shred rand fuel v d).2.1 = Status.errBadState := by
  have hb := shred_ok_block_nil rand fuel v d hok
  refine ⟨?_, ?_, ?_, ?_⟩
  · rw [Enroll, if_neg (by omega), if_pos hb]
  · rw [Revoke, if_neg (by omega), if_pos hb]
  · rw [Shred, if_pos hb]
  · rw [GetInfo, if_pos hb]

/-- Witness for `shred_then_ops_bad_state` after shredding `smallVol`. -/
theorem shred_then_ops_bad_state_witness :
    (Enroll [] 0 16 (Shred (List.replicate 8 2) 16 smallVol dAll).2.1 dAll).1 =
      Status.errBadState ∧
    GetInfo (Shred (List.replicate 8 2) 16 smallVol dAll).2.1 =
      Status.errBadState := by
  have h := shred_then_ops_bad_state (List.replicate 8 2) [] [] 0 16 16 smallVol
    dAll dAll (by decide) (by decide)
  exact ⟨h.1, h.2.2.2⟩

/-! ## OpenBlock status lemmas (claim C2) -/

/-- The volume state produced by a `Configure` call for version 1 (the
algorithm ids and resized buffers), regardless of the later fit check. -/
def configuredV1 (v : Volume) : Volume :=
  { v with
    aead := AeadAlg.aes128GcmSiv, cipher := CipherAlg.aes256Xts,
    digest := DigestAlg.sha256, digest_len := kDigestLen,
    wrap_key := List.replicate kAeadKeyLen 0,
    wrap_iv := List.replicate kAeadIvLen 0,
    data_key := List.replicate kDataKeyLen 0,
    data_iv := List.replicate kDataIvLen 0,
    slot_len := kDataKeyLen + kDataIvLen + kAeadTagLen }

theorem Configure_v1_eq (v : Volume) :
    Configure kAES256_XTS_SHA256 v =
      (if v.blk_block_size <
          kHeaderLen + kNumSlots * (kDataKeyLen + kDataIvLen + kAeadTagLen) then
        Status.errNotSupported
      else Status.ok, configuredV1 v) := by
  unfold Configure configuredV1
  dsimp only
  rw [if_pos rfl]
  split_ifs <;> rfl

theorem Configure_unknown (version : Nat) (v : Volume)
    (h : version ≠ kAES256_XTS_SHA256) :
    Configure version v = (Status.errNotSupported, v) := by
  unfold Configure
  rw [if_neg h]

/-- The status computed by `OpenBlock` as a function of the only state it
depends on: the root key, the slot, the block size and the block contents. -/
def openBlockStatusFn (key : Bytes) (slot bs : Nat) (block : Bytes) : Status :=
  if seg block 0 GUID_LEN ≠ kTypeGuid then Status.errNotSupported
  else if be32dec (seg block (GUID_LEN + GUID_LEN) 4) ≠ kAES256_XTS_SHA256 then
    Status.ok
  else if bs < kHeaderLen + kNumSlots * (kDataKeyLen + kDataIvLen + kAeadTagLen) then
    Status.ok
  else
    match aeadOpen
        (hkdfDerive DigestAlg.sha256 key (seg block GUID_LEN GUID_LEN)
          (wrapKeyLabel slot) kAeadKeyLen)
        (hkdfDerive DigestAlg.sha256 key (seg block GUID_LEN GUID_LEN)
          (wrapIvLabel slot) kAeadIvLen)
        (seg block 0 kHeaderLen)
        (seg block (kHeaderLen + (kDataKeyLen + kDataIvLen + kAeadTagLen) * slot)
          (kDataKeyLen + kDataIvLen + kAeadTagLen)) with
    | none => Status.errAccessDenied
    | some ptext =>
      if ptext.length < kDataIvLen then Status.errInvalidArgs
      else if (ptext.take (ptext.length - kDataIvLen)).length < kDataKeyLen then
        Status.errInvalidArgs
      else if ((ptext.take (ptext.length - kDataIvLen)).take
          ((ptext.take (ptext.length - kDataIvLen)).length - kDataKeyLen)).length
          ≠ 0 then
        Status.errInternal
      else Status.ok

theorem openBlock_fst (key : Bytes) (slot : Nat) (v : Volume) :
    (OpenBlock key slot v).1 = openBlockStatusFn key slot v.blk_block_size v.block := by
  simp only [OpenBlock, openBlockStatusFn]
  by_cases h1 : seg v.block 0 GUID_LEN ≠ kTypeGuid
  · rw [if_pos h1, if_pos h1]
  · rw [if_neg h1, if_neg h1]
    by_cases h2 : be32dec (seg v.block (GUID_LEN + GUID_LEN) 4) = kAES256_XTS_SHA256
    · rw [h2, Configure_v1_eq]
      dsimp only
      rw [if_neg (show ¬ (kAES256_XTS_SHA256 ≠ kAES256_XTS_SHA256) by simp)]
      by_cases h3 : v.blk_block_size <
          kHeaderLen + kNumSlots * (kDataKeyLen + kDataIvLen + kAeadTagLen)
      · rw [if_pos h3, if_pos h3,
          if_pos (show Status.errNotSupported ≠ Status.ok by decide)]
      · rw [if_neg h3, if_neg h3,
          if_neg (show ¬ (Status.ok ≠ Status.ok) by simp)]
        simp only [DeriveSlotKeys]
        rw [if_neg (show ¬ (Status.ok ≠ Status.ok) by simp)]
        simp only [configuredV1]
        simp only [List.length_replicate]
        split
        · rfl
        · split_ifs <;> rfl
    · rw [Configure_unknown _ _ h2]
      dsimp only
      rw [if_pos (show Status.errNotSupported ≠ Status.ok by decide),
        if_pos (show be32dec (seg v.block (GUID_LEN + GUID_LEN) 4) ≠
          kAES256_XTS_SHA256 from h2)]

theorem openBlock_preserves (key : Bytes) (slot : Nat) (v : Volume) :
    (OpenBlock key slot v).2.block = v.block ∧
    (OpenBlock key slot v).2.blk_block_size = v.blk_block_size ∧
    (OpenBlock key slot v).2.fvm_slice_size = v.fvm_slice_size ∧
    (OpenBlock key slot v).2.fvm_vslice_count = v.fvm_vslice_count := by
  simp only [OpenBlock]
  by_cases h1 : seg v.block 0 GUID_LEN ≠ kTypeGuid
  · rw [if_pos h1]
    exact ⟨rfl, rfl, rfl, rfl⟩
  · rw [if_neg h1]
    by_cases h2 : be32dec (seg v.block (GUID_LEN + GUID_LEN) 4) = kAES256_XTS_SHA256
    · rw [h2, Configure_v1_eq]
      dsimp only
      by_cases h3 : v.blk_block_size <
          kHeaderLen + kNumSlots * (kDataKeyLen + kDataIvLen + kAeadTagLen)
      · rw [if_pos h3,
          if_pos (show Status.errNotSupported ≠ Status.ok by decide)]
        exact ⟨rfl, rfl, rfl, rfl⟩
      · rw [if_neg h3,
          if_neg (show ¬ (Status.ok ≠ Status.ok) by simp)]
        simp only [DeriveSlotKeys]
        rw [if_neg (show ¬ (Status.ok ≠ Status.ok) by simp)]
        split <;> try exact ⟨rfl, rfl, rfl, rfl⟩
        split_ifs <;> exact ⟨rfl, rfl, rfl, rfl⟩
    · rw [Configure_unknown _ _ h2]
      dsimp only
      rw [if_pos (show Status.errNotSupported ≠ Status.ok by decide)]
      exact ⟨rfl, rfl, rfl, rfl⟩

/-- Whether the loop body of the private `Open` succeeds at location `off`:
the read succeeds and `OpenBlock` on the read block returns `ZX_OK`. -/
def tryOk (key : Bytes) (slot bs n : Nat) (d : Disk) (off : Nat) : Bool :=
  d.readOk off &&
    (openBlockStatusFn key slot bs (fill n (d.mem off)) == Status.ok)

theorem openLoop_cons (key : Bytes) (slot fuel off : Nat) (rest : List Nat)
    (v : Volume) (d : Disk) :
    openLoop key slot fuel (off :: rest) v d =
      if d.readOk off then
        (match OpenBlock key slot
            { v with offset := off, block := fill v.block.length (d.mem off) } with
         | (Status.ok, v2) =>
           ((CommitBlock fuel v2 d).1, (CommitBlock fuel v2 d).2.1,
             (CommitBlock fuel v2 d).2.2.1)
         | (_, v2) => openLoop key slot fuel rest v2 d)
      else openLoop key slot fuel rest { v with offset := off } d := rfl

theorem openLoop_cons_fail_read (key : Bytes) (slot fuel off : Nat)
    (rest : List Nat) (v : Volume) (d : Disk) (hro : d.readOk off = false) :
    openLoop key slot fuel (off :: rest) v d =
      openLoop key slot fuel rest { v with offset := off } d := by
  rw [openLoop_cons, if_neg (by simp [hro])]

theorem openLoop_cons_fail_open (key : Bytes) (slot fuel off : Nat)
    (rest : List Nat) (v : Volume) (d : Disk) (hro : d.readOk off = true)
    (hst : (OpenBlock key slot
      { v with offset := off, block := fill v.block.length (d.mem off) }).1 ≠
        Status.ok) :
    openLoop key slot fuel (off :: rest) v d =
      openLoop key slot fuel rest
        (OpenBlock key slot
          { v with offset := off, block := fill v.block.length (d.mem off) }).2 d := by
  rw [openLoop_cons, if_pos hro]
  rcases hob : OpenBlock key slot
      { v with offset := off, block := fill v.block.length (d.mem off) } with ⟨st, v2⟩
  cases st with
  | ok => exact absurd (by rw [hob]) hst
  | errNext => rfl
  | errStop => rfl
  | errInvalidArgs => rfl
  | errBadState => rfl
  | errNotSupported => rfl
  | errNoSpace => rfl
  | errAccessDenied => rfl
  | errIO => rfl
  | errInternal => rfl
  | errNoMemory => rfl

theorem openLoop_cons_success (key : Bytes) (slot fuel off : Nat)
    (rest : List Nat) (v : Volume) (d : Disk) (hro : d.readOk off = true)
    (hst : (OpenBlock key slot
      { v with offset := off, block := fill v.block.length (d.mem off) }).1 =
        Status.ok) :
    openLoop key slot fuel (off :: rest) v d =
      ((CommitBlock fuel (OpenBlock key slot
          { v with offset := off, block := fill v.block.length (d.mem off) }).2 d).1,
        (CommitBlock fuel (OpenBlock key slot
          { v with offset := off, block := fill v.block.length (d.mem off) }).2 d).2.1,
        (CommitBlock fuel (OpenBlock key slot
          { v with offset := off, block := fill v.block.length (d.mem off) }).2 d).2.2.1) := by
  rw [openLoop_cons, if_pos hro]
  rcases hob : OpenBlock key slot
      { v with offset := off, block := fill v.block.length (d.mem off) } with ⟨st, v2⟩
  have hst2 : st = Status.ok := by rw [hob] at hst; exact hst
  subst hst2
  rfl

theorem openLoop_spec (key : Bytes) (slot fuel : Nat) (ls : List Nat) (v : Volume)
    (d : Disk) :
    ((∀ off ∈ ls, tryOk key slot v.blk_block_size v.block.length d off = false) →
      (openLoop key slot fuel ls v d).1 = Status.errAccessDenied ∧
      (openLoop key slot fuel ls v d).2.2 = d) ∧
    (∀ l1 off l2, ls = l1 ++ off :: l2 →
      (∀ o ∈ l1, tryOk key slot v.blk_block_size v.block.length d o = false) →
      tryOk key slot v.blk_block_size v.block.length d off = true →
      ∃ v2, v2.block = fill v.block.length (d.mem off) ∧
        v2.blk_block_size = v.blk_block_size ∧
        v2.fvm_slice_size = v.fvm_slice_size ∧
        v2.fvm_vslice_count = v.fvm_vslice_count ∧
        openLoop key slot fuel ls v d =
          ((CommitBlock fuel v2 d).1, (CommitBlock fuel v2 d).2.1,
            (CommitBlock fuel v2 d).2.2.1)) := by
  induction ls generalizing v with
  | nil =>
    refine ⟨fun _ => ⟨rfl, rfl⟩, ?_⟩
    intro l1 off l2 heq
    exact absurd heq (by cases l1 <;> simp)
  | cons off0 rest ih =>
    constructor
    · intro hfail
      have hoff0 := hfail off0 (List.mem_cons_self off0 rest)
      by_cases hro : d.readOk off0 = true
      · have hst : (OpenBlock key slot
            { v with offset := off0, block := fill v.block.length (d.mem off0) }).1 ≠
              Status.ok := by
          rw [openBlock_fst]
          intro hcon
          simp only [tryOk, hro, Bool.true_and, beq_eq_false_iff_ne, ne_eq] at hoff0
          exact hoff0 (by simpa using hcon)
        rw [openLoop_cons_fail_open key slot fuel off0 rest v d hro hst]
        have hpre := openBlock_preserves key slot
          { v with offset := off0, block := fill v.block.length (d.mem off0) }
        have hbs2 : (OpenBlock key slot
            { v with offset := off0, block := fill v.block.length (d.mem off0) }).2.blk_block_size =
            v.blk_block_size := by simpa using hpre.2.1
        have hbl2 : (OpenBlock key slot
            { v with offset := off0, block := fill v.block.length (d.mem off0) }).2.block.length =
            v.block.length := by
          rw [hpre.1]
          simpa using length_fill v.block.length (d.mem off0)
        exact (ih _).1 (by
          intro o ho
          rw [hbs2, hbl2]
          exact hfail o (List.mem_cons_of_mem _ ho))
      · have hro2 : d.readOk off0 = false := by
          cases hb : d.readOk off0
          · rfl
          · exact absurd hb hro
        rw [openLoop_cons_fail_read key slot fuel off0 rest v d hro2]
        exact (ih _).1 (by
          intro o ho
          simpa using hfail o (List.mem_cons_of_mem _ ho))
    · intro l1 off l2 heq hfails hsucc
      cases l1 with
      | nil =>
        simp only [List.nil_append] at heq
        obtain ⟨rfl, rfl⟩ : off0 = off ∧ rest = l2 := by
          constructor <;> [exact (List.cons.injEq _ _ _ _ ▸ heq).1;
            exact (List.cons.injEq _ _ _ _ ▸ heq).2]
        have hand : d.readOk off0 = true ∧ openBlockStatusFn key slot
            v.blk_block_size (fill v.block.length (d.mem off0)) = Status.ok := by
          have h2 := hsucc
          simp only [tryOk, Bool.and_eq_true, beq_iff_eq] at h2
          exact h2
        have hro : d.readOk off0 = true := hand.1
        have hfn : openBlockStatusFn key slot v.blk_block_size
            (fill v.block.length (d.mem off0)) = Status.ok := hand.2
        have hst : (OpenBlock key slot
            { v with offset := off0, block := fill v.block.length (d.mem off0) }).1 =
              Status.ok := by
          rw [openBlock_fst]
          simpa using hfn
        refine ⟨(OpenBlock key slot
          { v with offset := off0, block := fill v.block.length (d.mem off0) }).2,
          ?_, ?_, ?_, ?_, ?_⟩
        · have hpre := openBlock_preserves key slot
            { v with offset := off0, block := fill v.block.length (d.mem off0) }
          simpa using hpre.1
        · have hpre := openBlock_preserves key slot
            { v with offset := off0, block := fill v.block.length (d.mem off0) }
          simpa using hpre.2.1
        · have hpre := openBlock_preserves key slot
            { v with offset := off0, block := fill v.block.length (d.mem off0) }
          simpa using hpre.2.2.1
        · have hpre := openBlock_preserves key slot
            { v with offset := off0, block := fill v.block.length (d.mem off0) }
          simpa using hpre.2.2.2
        · exact openLoop_cons_success key slot fuel off0 rest v d hro hst
      | cons a l1x =>
        simp only [List.cons_append] at heq
        obtain ⟨rfl, hrest⟩ : off0 = a ∧ rest = l1x ++ off :: l2 := by
          constructor <;> [exact (List.cons.injEq _ _ _ _ ▸ heq).1;
            exact (List.cons.injEq _ _ _ _ ▸ heq).2]
        have hfa := hfails off0 (List.mem_cons_self off0 l1x)
        by_cases hro : d.readOk off0 = true
        · have hst : (OpenBlock key slot
              { v with offset := off0, block := fill v.block.length (d.mem off0) }).1 ≠
                Status.ok := by
            rw [openBlock_fst]
            intro hcon
            simp only [tryOk, hro, Bool.true_and, beq_eq_false_iff_ne, ne_eq] at hfa
            exact hfa (by simpa using hcon)
          rw [openLoop_cons_fail_open key slot fuel off0 rest v d hro hst]
          have hpre := openBlock_preserves key slot
            { v with offset := off0, block := fill v.block.length (d.mem off0) }
          have hbs2 : (OpenBlock key slot
              { v with offset := off0, block := fill v.block.length (d.mem off0) }).2.blk_block_size =
              v.blk_block_size := by simpa using hpre.2.1
          have hbl2 : (OpenBlock key slot
              { v with offset := off0, block := fill v.block.length (d.mem off0) }).2.block.length =
              v.block.length := by
            rw [hpre.1]
            simpa using length_fill v.block.length (d.mem off0)
          obtain ⟨v2, p1, p2, p3, p4, peq⟩ := (ih _).2 l1x off l2 hrest
            (by
              intro o ho
              rw [hbs2, hbl2]
              exact hfails o (List.mem_cons_of_mem _ ho))
            (by
              rw [hbs2, hbl2]
              exact hsucc)
          refine ⟨v2, ?_, ?_, ?_, ?_, peq⟩
          · rw [p1, hbl2]
          · rw [p2, hbs2]
          · rw [p3]
            simpa using hpre.2.2.1
          · rw [p4]
            simpa using hpre.2.2.2
        · have hro2 : d.readOk off0 = false := by
            cases hb : d.readOk off0
            · rfl
            · exact absurd hb hro
          rw [openLoop_cons_fail_read key slot fuel off0 rest v d hro2]
          obtain ⟨v2, p1, p2, p3, p4, peq⟩ := (ih { v with offset := off0 }).2 l1x off l2 hrest
            (by
              intro o ho
              simpa using hfails o (List.mem_cons_of_mem _ ho))
            (by simpa using hsucc)
          exact ⟨v2, by simpa using p1, by simpa using p2, by simpa using p3,
            by simpa using p4, peq⟩

/-- A disk on which every read fails. -/
def dNoRead : Disk :=
  { mem := fun _ => [], readOk := fun _ => false, writeOk := fun _ => true }

/-- C2: the private `Open(key, slot)` visits the enumerated locations in
iterator order; at the first location where both the read and `OpenBlock`
succeed it immediately runs `CommitBlock` on the read block (self-healing
the other replicas) and returns its result triple; if reading or opening
fails at every location it returns `ZX_ERR_ACCESS_DENIED` (and never touches
the disk). -/
theorem openAny_first_success (key : Bytes) (slot fuel : Nat) (v : Volume)
    (d : Disk) :
    ((∀ off ∈ (locations fuel v.block.length v.fvm_slice_size
        v.fvm_vslice_count).1,
        tryOk key slot v.blk_block_size v.block.length d off = false) →
      (OpenAny key slot fuel v d).1 = Status.errAccessDenied ∧
      (OpenAny key slot fuel v d).2.2 = d) ∧
    (∀ l1 off l2,
      (locations fuel v.block.length v.fvm_slice_size v.fvm_vslice_count).1 =
        l1 ++ off :: l2 →
      (∀ o ∈ l1, tryOk key slot v.blk_block_size v.block.length d o = false) →
      tryOk key slot v.blk_block_size v.block.length d off = true →
      ∃ v2, v2.block = fill v.block.length (d.mem off) ∧
        v2.blk_block_size = v.blk_block_size ∧
        v2.fvm_slice_size = v.fvm_slice_size ∧
        v2.fvm_vslice_count = v.fvm_vslice_count ∧
        OpenAny key slot fuel v d =
          ((CommitBlock fuel v2 d).1, (CommitBlock fuel v2 d).2.1,
            (CommitBlock fuel v2 d).2.2.1)) :=
  openLoop_spec key slot fuel
    (locations fuel v.block.length v.fvm_slice_size v.fvm_vslice_count).1 v d

/-- Witness for `openAny_first_success`: on a disk whose reads all fail, the
private `Open` returns access-denied. -/
theorem openAny_first_success_witness :
    (OpenAny [] 0 16 smallVol dNoRead).1 = Status.errAccessDenied :=
  (((openAny_first_success [] 0 16 smallVol dNoRead).1) (by decide)).1

/-! ## AEAD roundtrip (claim C1) -/

theorem aeadKeystream_lt (key iv : Bytes) (n : Nat) :
    ∀ b ∈ aeadKeystream key iv n, b < 256 := by
  intro b hb
  simp only [aeadKeystream, List.mem_map] at hb
  obtain ⟨i, _, rfl⟩ := hb
  exact Nat.mod_lt _ (by omega)

theorem aeadKeystream_length (key iv : Bytes) (n : Nat) :
    (aeadKeystream key iv n).length = n := by
  simp [aeadKeystream]

theorem aeadTag_length (key iv ad p : Bytes) :
    (aeadTag key iv ad p).length = kAeadTagLen := by
  simp [aeadTag]

theorem zip_encdec (p : Bytes) : ∀ ks : Bytes, (∀ b ∈ p, b < 256) →
    (∀ b ∈ ks, b < 256) → ks.length = p.length →
    List.zipWith (fun c k => (c + (256 - k)) % 256)
      (List.zipWith (fun a k => (a + k) % 256) p ks) ks = p := by
  induction p with
  | nil => intro ks _ _ _; cases ks <;> simp
  | cons a t ih =>
    intro ks hp hk hl
    cases ks with
    | nil => simp at hl
    | cons k kt =>
      simp only [List.zipWith]
      refine congrArg₂ List.cons ?_ ?_
      · have ha : a < 256 := hp a (by simp)
        have hkk : k < 256 := hk k (by simp)
        omega
      · exact ih kt (fun b hb => hp b (by simp [hb]))
          (fun b hb => hk b (by simp [hb])) (by simpa using hl)

theorem aeadSeal_length (key iv ad p : Bytes) :
    (aeadSeal key iv ad p).length = p.length + kAeadTagLen := by
  simp [aeadSeal, List.length_zipWith, aeadKeystream_length, aeadTag_length]

theorem aeadOpen_seal (key iv ad p : Bytes) (hp : ∀ b ∈ p, b < 256) :
    aeadOpen key iv ad (aeadSeal key iv ad p) = some p := by
  have hks := aeadKeystream_lt key iv p.length
  have hksl := aeadKeystream_length key iv p.length
  have hel : (List.zipWith (fun a k => (a + k) % 256) p
      (aeadKeystream key iv p.length)).length = p.length := by
    rw [List.length_zipWith, hksl, Nat.min_self]
  have hlen := aeadSeal_length key iv ad p
  simp only [aeadOpen]
  rw [if_neg (by rw [hlen]; omega)]
  have hsub : (aeadSeal key iv ad p).length - kAeadTagLen = p.length := by
    rw [hlen]
    omega
  have htake : (aeadSeal key iv ad p).take
      ((aeadSeal key iv ad p).length - kAeadTagLen) =
      List.zipWith (fun a k => (a + k) % 256) p (aeadKeystream key iv p.length) := by
    rw [hsub]
    exact take_app_of_length _ _ _ hel
  have hdrop : (aeadSeal key iv ad p).drop
      ((aeadSeal key iv ad p).length - kAeadTagLen) = aeadTag key iv ad p := by
    rw [hsub]
    exact drop_app_of_length _ _ _ hel
  rw [htake, hdrop, hel, zip_encdec p (aeadKeystream key iv p.length) hp hks hksl,
    if_pos rfl]

theorem fill_bytes_lt (n : Nat) (r : Bytes) (hr : ∀ x ∈ r, x < 256) :
    ∀ b ∈ fill n r, b < 256 := by
  intro b hb
  unfold fill at hb
  rcases List.mem_append.mp (List.mem_of_mem_take hb) with h | h
  · exact hr b h
  · rw [List.eq_of_mem_replicate h]
    omega

/-! ## The create-then-open pipeline (claim C1) -/

/-- The volume state `Init` produces on the raw 4096 x 64 device `dev64`. -/
def initVol (w : Volume) : Volume :=
  { Reset w with
    blk_block_size := 4096, blk_block_count := 60,
    fvm_slice_size := 8192, fvm_vslice_count := 30,
    has_fvm := false, block := List.replicate 4096 0 }

set_option maxRecDepth 10000 in
theorem init_dev64 (w : Volume) : Init dev64 w = (Status.ok, initVol w) := rfl

/-- The RFC 4122 v4 instance GUID `CreateBlock` builds from the randomness `r`. -/
def stampedGuid (r : Bytes) : Bytes :=
  ((fill GUID_LEN r).set 6 ((fill GUID_LEN r).getD 6 0 % 16 + 64)).set 8
    (((fill GUID_LEN r).set 6 ((fill GUID_LEN r).getD 6 0 % 16 + 64)).getD 8 0 % 64
      + 128)

/-- The block image `CreateBlock` assembles: random backdrop, type GUID,
instance GUID, big-endian version. -/
def createdBlock (n : Nat) (backdrop guidR : Bytes) : Bytes :=
  listWrite (listWrite (listWrite (fill n backdrop) 0 kTypeGuid) GUID_LEN
    (stampedGuid guidR)) (GUID_LEN + GUID_LEN) (be32enc kDefaultVersion)

/-- The volume state after a successful `CreateBlock`. -/
def createdVol (u : Volume) (backdrop guidR dkR divR : Bytes) : Volume :=
  { configuredV1
      { u with
        block := listWrite (listWrite (fill u.block.length backdrop) 0 kTypeGuid)
          GUID_LEN (stampedGuid guidR),
        guid := stampedGuid guidR } with
    block := createdBlock u.block.length backdrop guidR,
    data_key := fill kDataKeyLen dkR,
    data_iv := fill kDataIvLen divR,
    header := (createdBlock u.block.length backdrop guidR).take kHeaderLen }

set_option maxRecDepth 10000 in
theorem createBlock_eq (u : Volume) (backdrop guidR dkR divR : Bytes)
    (hfit : ¬ u.blk_block_size <
      kHeaderLen + kNumSlots * (kDataKeyLen + kDataIvLen + kAeadTagLen)) :
    CreateBlock backdrop guidR dkR divR u =
      (Status.ok, createdVol u backdrop guidR dkR divR) := by
  simp only [CreateBlock, createdVol, createdBlock, stampedGuid, kDefaultVersion]
  rw [Configure_v1_eq]
  dsimp only
  rw [if_neg (by simpa using hfit)]
  simp only [configuredV1]
  simp only [List.length_replicate]

theorem sealBlock_eq (key : Bytes) (slot : Nat) (c : Volume) :
    SealBlock key slot c =
      (Status.ok,
       { c with
         wrap_key := hkdfDerive c.digest key c.guid (wrapKeyLabel slot)
           c.wrap_key.length,
         wrap_iv := hkdfDerive c.digest key c.guid (wrapIvLabel slot)
           c.wrap_iv.length,
         block := listWrite c.block (kHeaderLen + c.slot_len * slot)
           (aeadSeal
             (hkdfDerive c.digest key c.guid (wrapKeyLabel slot) c.wrap_key.length)
             (hkdfDerive c.digest key c.guid (wrapIvLabel slot) c.wrap_iv.length)
             c.header (c.data_key ++ c.data_iv)) }) := rfl

/-- The volume state after `SealBlock key 0` on a freshly created block. -/
def sealedVol (key : Bytes) (c : Volume) : Volume :=
  { c with
    wrap_key := hkdfDerive c.digest key c.guid (wrapKeyLabel 0) c.wrap_key.length,
    wrap_iv := hkdfDerive c.digest key c.guid (wrapIvLabel 0) c.wrap_iv.length,
    block := listWrite c.block (kHeaderLen + c.slot_len * 0)
      (aeadSeal
        (hkdfDerive c.digest key c.guid (wrapKeyLabel 0) c.wrap_key.length)
        (hkdfDerive c.digest key c.guid (wrapIvLabel 0) c.wrap_iv.length)
        c.header (c.data_key ++ c.data_iv)) }

theorem sealBlock0_eq (key : Bytes) (c : Volume) :
    SealBlock key 0 c = (Status.ok, sealedVol key c) := rfl

theorem openBlock_success (key : Bytes) (slot : Nat) (v : Volume) (dk dv : Bytes)
    (h1 : ¬ seg v.block 0 GUID_LEN ≠ kTypeGuid)
    (h2 : be32dec (seg v.block (GUID_LEN + GUID_LEN) 4) = kAES256_XTS_SHA256)
    (h3 : ¬ v.blk_block_size <
      kHeaderLen + kNumSlots * (kDataKeyLen + kDataIvLen + kAeadTagLen))
    (hdk : dk.length = kDataKeyLen) (hdv : dv.length = kDataIvLen)
    (haead : aeadOpen
      (hkdfDerive DigestAlg.sha256 key (seg v.block GUID_LEN GUID_LEN)
        (wrapKeyLabel slot) kAeadKeyLen)
      (hkdfDerive DigestAlg.sha256 key (seg v.block GUID_LEN GUID_LEN)
        (wrapIvLabel slot) kAeadIvLen)
      (seg v.block 0 kHeaderLen)
      (seg v.block (kHeaderLen + (kDataKeyLen + kDataIvLen + kAeadTagLen) * slot)
        (kDataKeyLen + kDataIvLen + kAeadTagLen)) = some (dk ++ dv)) :
    (OpenBlock key slot v).1 = Status.ok ∧
    (OpenBlock key slot v).2.data_key = dk ∧
    (OpenBlock key slot v).2.data_iv = dv := by
  simp only [OpenBlock]
  rw [if_neg h1, h2, Configure_v1_eq]
  dsimp only
  rw [if_neg h3, if_neg (show ¬ (Status.ok ≠ Status.ok) by simp)]
  simp only [DeriveSlotKeys]
  rw [if_neg (show ¬ (Status.ok ≠ Status.ok) by simp)]
  simp only [configuredV1]
  simp only [List.length_replicate]
  split
  · rename_i heq
    rw [haead] at heq
    simp at heq
  · rename_i ptext heq
    rw [haead] at heq
    have hpt : ptext = dk ++ dv := by
      injection heq with h
      exact h.symm
    subst hpt
    have hL : (dk ++ dv).length = kDataKeyLen + kDataIvLen := by
      rw [List.length_append, hdk, hdv]
    have hsub1 : (dk ++ dv).length - kDataIvLen = dk.length := by
      rw [hL, hdk]
      omega
    rw [hsub1, drop_app_of_length dk dv dk.length rfl,
      take_app_of_length dk dv dk.length rfl]
    have hsub2 : dk.length - kDataKeyLen = 0 := by
      rw [hdk]
      omega
    rw [hsub2, List.drop_zero, List.take_zero]
    rw [if_neg (by rw [hL]; omega), if_neg (by rw [hdk]; omega),
      if_neg (by simp)]
    exact ⟨rfl, rfl, rfl⟩

theorem seg_listWrite_at (dst : Bytes) (off : Nat) (src : Bytes) (n : Nat)
    (hn : src.length = n) (h : off + n ≤ dst.length) :
    seg (listWrite dst off src) off n = src := by
  subst hn
  exact seg_listWrite_self dst off src h

theorem stampedGuid_length (r : Bytes) : (stampedGuid r).length = GUID_LEN := by
  simp [stampedGuid, List.length_set, length_fill]

/-- Layout facts about a fully assembled and sealed superblock image:
backdrop `F`, type GUID `tg` at 0, instance GUID `g` at 16, version `enc` at
32, slot-0 ciphertext `ct` at 36. -/
theorem block_facts (F tg g enc ct : Bytes) (hF : F.length = 4096)
    (htg : tg.length = GUID_LEN) (hg : g.length = GUID_LEN)
    (henc : enc.length = 4)
    (hct : ct.length = kDataKeyLen + kDataIvLen + kAeadTagLen) :
    (listWrite (listWrite (listWrite (listWrite F 0 tg) GUID_LEN g)
      (GUID_LEN + GUID_LEN) enc) kHeaderLen ct).length = 4096 ∧
    seg (listWrite (listWrite (listWrite (listWrite F 0 tg) GUID_LEN g)
      (GUID_LEN + GUID_LEN) enc) kHeaderLen ct) 0 GUID_LEN = tg ∧
    seg (listWrite (listWrite (listWrite (listWrite F 0 tg) GUID_LEN g)
      (GUID_LEN + GUID_LEN) enc) kHeaderLen ct) GUID_LEN GUID_LEN = g ∧
    seg (listWrite (listWrite (listWrite (listWrite F 0 tg) GUID_LEN g)
      (GUID_LEN + GUID_LEN) enc) kHeaderLen ct) (GUID_LEN + GUID_LEN) 4 = enc ∧
    seg (listWrite (listWrite (listWrite (listWrite F 0 tg) GUID_LEN g)
      (GUID_LEN + GUID_LEN) enc) kHeaderLen ct) 0 kHeaderLen =
      (listWrite (listWrite (listWrite F 0 tg) GUID_LEN g)
        (GUID_LEN + GUID_LEN) enc).take kHeaderLen ∧
    seg (listWrite (listWrite (listWrite (listWrite F 0 tg) GUID_LEN g)
      (GUID_LEN + GUID_LEN) enc) kHeaderLen ct)
      (kHeaderLen + (kDataKeyLen + kDataIvLen + kAeadTagLen) * 0)
      (kDataKeyLen + kDataIvLen + kAeadTagLen) = ct := by
  have e16 : (GUID_LEN : Nat) = 16 := rfl
  have e36 : (kHeaderLen : Nat) = 36 := rfl
  have e64 : kDataKeyLen + kDataIvLen + kAeadTagLen = 64 := rfl
  have h1 : (listWrite F 0 tg).length = 4096 := by
    rw [listWrite_length _ _ _ (by omega), hF]
  have h2 : (listWrite (listWrite F 0 tg) GUID_LEN g).length = 4096 := by
    rw [listWrite_length _ _ _ (by omega), h1]
  have h3 : (listWrite (listWrite (listWrite F 0 tg) GUID_LEN g)
      (GUID_LEN + GUID_LEN) enc).length = 4096 := by
    rw [listWrite_length _ _ _ (by omega), h2]
  have h4 : (listWrite (listWrite (listWrite (listWrite F 0 tg) GUID_LEN g)
      (GUID_LEN + GUID_LEN) enc) kHeaderLen ct).length = 4096 := by
    rw [listWrite_length _ _ _ (by omega), h3]
  refine ⟨h4, ?_, ?_, ?_, ?_, ?_⟩
  · rw [seg_listWrite_below _ _ _ _ _ (by omega) (by omega),
      seg_listWrite_below _ _ _ _ _ (by omega) (by omega),
      seg_listWrite_below _ _ _ _ _ (by omega) (by omega)]
    exact seg_listWrite_at F 0 tg GUID_LEN htg (by omega)
  · rw [seg_listWrite_below _ _ _ _ _ (by omega) (by omega),
      seg_listWrite_below _ _ _ _ _ (by omega) (by omega)]
    exact seg_listWrite_at (listWrite F 0 tg) GUID_LEN g GUID_LEN hg (by omega)
  · rw [seg_listWrite_below _ _ _ _ _ (by omega) (by omega)]
    exact seg_listWrite_at (listWrite (listWrite F 0 tg) GUID_LEN g)
      (GUID_LEN + GUID_LEN) enc 4 henc (by omega)
  · rw [seg_listWrite_below _ _ _ _ _ (by omega) (by omega)]
    exact seg_zero _ _
  · have hoff : kHeaderLen + (kDataKeyLen + kDataIvLen + kAeadTagLen) * 0 =
        kHeaderLen := by omega
    rw [hoff]
    exact seg_listWrite_at _ kHeaderLen ct _ hct (by omega)

/-- `CommitBlock` always reports `ZX_OK` and preserves the in-memory data key
and IV and the disk's success oracles. -/
theorem commitBlock_fields (fuel : Nat) (v : Volume) (d : Disk) :
    (CommitBlock fuel v d).1 = Status.ok ∧
    (CommitBlock fuel v d).2.1.data_key = v.data_key ∧
    (CommitBlock fuel v d).2.1.data_iv = v.data_iv ∧
    (CommitBlock fuel v d).2.2.1.readOk = d.readOk :=
  ⟨rfl, (commitLoop_fields _ _ _ _ _).2.2.2.2.2.1,
    (commitLoop_fields _ _ _ _ _).2.2.2.2.2.2,
    (commitLoop_fields _ _ _ _ _).2.2.2.1⟩

/-- After `CommitBlock` with all writes succeeding, every enumerated location
holds the committed block. -/
theorem commitBlock_heal (fuel : Nat) (v : Volume) (d : Disk) (L : Nat)
    (hw : ∀ x ∈ (locations fuel v.block.length v.fvm_slice_size
      v.fvm_vslice_count).1, d.writeOk x = true)
    (hL : L ∈ (locations fuel v.block.length v.fvm_slice_size
      v.fvm_vslice_count).1) :
    fill v.block.length ((CommitBlock fuel v d).2.2.1.mem L) = v.block :=
  commitLoop_heal v.block _ v d 0 hw rfl L (Or.inl hL)

/-- The block image after `Init` (on `dev64`), `CreateBlock`, `SealBlock 0`:
the created image with slot 0's ciphertext written at `kHeaderLen`. -/
theorem sealedCreated_block (w0 : Volume) (key backdrop guidR dkR divR : Bytes) :
    (sealedVol key (createdVol (initVol w0) backdrop guidR dkR divR)).block =
      listWrite (createdBlock (initVol w0).block.length backdrop guidR)
        (kHeaderLen + (kDataKeyLen + kDataIvLen + kAeadTagLen) * 0)
        (aeadSeal
          (hkdfDerive DigestAlg.sha256 key (stampedGuid guidR) (wrapKeyLabel 0)
            kAeadKeyLen)
          (hkdfDerive DigestAlg.sha256 key (stampedGuid guidR) (wrapIvLabel 0)
            kAeadIvLen)
          ((createdBlock (initVol w0).block.length backdrop guidR).take kHeaderLen)
          (fill kDataKeyLen dkR ++ fill kDataIvLen divR)) := rfl

/-- The concrete location list of the S1 geometry: 4096-byte blocks,
8192-byte synthesized slices, 30 vslices. -/
theorem locations_s1 : (locations 16 4096 8192 30).1 = [0, 4096, 253952, 258048] := rfl

set_option maxRecDepth 10000 in
/-- C1: create-then-open recovers the data keys. On the raw S1 device, for
every root key, every byte-valued key/IV randomness and every disk whose reads
and writes succeed, `Create` succeeds with in-memory `data_key`/`data_iv`
equal to the generated randomness, and a subsequent `Open` of slot 0 on a
fresh instance succeeds and recovers exactly the same `data_key` and
`data_iv` through the AEAD open of slot 0's ciphertext. -/
theorem create_then_open_recovers_keys
    (key backdrop guidR dkR divR : Bytes) (w0 w1 : Volume) (d : Disk)
    (hdkb : ∀ b ∈ dkR, b < 256) (hdivb : ∀ b ∈ divR, b < 256)
    (hrd : ∀ L, d.readOk L = true) (hwr : ∀ L, d.writeOk L = true) :
    (Create dev64 key backdrop guidR dkR divR 16 w0 d).1 = Status.ok ∧
    (Create dev64 key backdrop guidR dkR divR 16 w0 d).2.1.data_key = fill kDataKeyLen dkR ∧
    (Create dev64 key backdrop guidR dkR divR 16 w0 d).2.1.data_iv = fill kDataIvLen divR ∧
    (OpenVolume dev64 key 0 16 w1 (Create dev64 key backdrop guidR dkR divR 16 w0 d).2.2).1 = Status.ok ∧
    (OpenVolume dev64 key 0 16 w1 (Create dev64 key backdrop guidR dkR divR 16 w0 d).2.2).2.1.data_key = fill kDataKeyLen dkR ∧
    (OpenVolume dev64 key 0 16 w1 (Create dev64 key backdrop guidR dkR divR 16 w0 d).2.2).2.1.data_iv = fill kDataIvLen divR := by
  have hlen0 : (initVol w0).block.length = 4096 := by
    rw [show (initVol w0).block = List.replicate 4096 0 from rfl, List.length_replicate]
  have hlen1 : (initVol w1).block.length = 4096 := by
    rw [show (initVol w1).block = List.replicate 4096 0 from rfl, List.length_replicate]
  have hfit0 : ¬ (initVol w0).blk_block_size <
      kHeaderLen + kNumSlots * (kDataKeyLen + kDataIvLen + kAeadTagLen) := by
    rw [show (initVol w0).blk_block_size = (4096 : Nat) from rfl]
    decide
  have hCr : (Create dev64 key backdrop guidR dkR divR 16 w0 d) =
      ((CommitBlock 16 (sealedVol key (createdVol (initVol w0) backdrop guidR dkR divR)) d).1, (CommitBlock 16 (sealedVol key (createdVol (initVol w0) backdrop guidR dkR divR)) d).2.1,
        (CommitBlock 16 (sealedVol key (createdVol (initVol w0) backdrop guidR dkR divR)) d).2.2.1) := by
    simp only [Create, init_dev64,
      createBlock_eq (initVol w0) backdrop guidR dkR divR hfit0, sealBlock0_eq]
  have hSb : (sealedVol key (createdVol (initVol w0) backdrop guidR dkR divR)).block = (listWrite (createdBlock 4096 backdrop guidR) kHeaderLen (aeadSeal (hkdfDerive DigestAlg.sha256 key (stampedGuid guidR) (wrapKeyLabel 0) kAeadKeyLen) (hkdfDerive DigestAlg.sha256 key (stampedGuid guidR) (wrapIvLabel 0) kAeadIvLen) ((createdBlock 4096 backdrop guidR).take kHeaderLen) (fill kDataKeyLen dkR ++ fill kDataIvLen divR))) := by
    have h := sealedCreated_block w0 key backdrop guidR dkR divR
    rw [hlen0] at h
    rw [show kHeaderLen + (kDataKeyLen + kDataIvLen + kAeadTagLen) * 0 = kHeaderLen
      from rfl] at h
    exact h
  have hCTlen : ((aeadSeal (hkdfDerive DigestAlg.sha256 key (stampedGuid guidR) (wrapKeyLabel 0) kAeadKeyLen) (hkdfDerive DigestAlg.sha256 key (stampedGuid guidR) (wrapIvLabel 0) kAeadIvLen) ((createdBlock 4096 backdrop guidR).take kHeaderLen) (fill kDataKeyLen dkR ++ fill kDataIvLen divR)) : Bytes).length = kDataKeyLen + kDataIvLen + kAeadTagLen := by
    rw [aeadSeal_length, List.length_append, length_fill, length_fill]
  have hbf := block_facts (fill 4096 backdrop) kTypeGuid (stampedGuid guidR)
    (be32enc kDefaultVersion) (aeadSeal (hkdfDerive DigestAlg.sha256 key (stampedGuid guidR) (wrapKeyLabel 0) kAeadKeyLen) (hkdfDerive DigestAlg.sha256 key (stampedGuid guidR) (wrapIvLabel 0) kAeadIvLen) ((createdBlock 4096 backdrop guidR).take kHeaderLen) (fill kDataKeyLen dkR ++ fill kDataIvLen divR)) (length_fill 4096 backdrop) rfl
    (stampedGuid_length guidR) rfl hCTlen
  obtain ⟨hB2len, hs1, hs2, hs3, hs4, hs5⟩ := hbf
  have hcb : listWrite (listWrite (listWrite (fill 4096 backdrop) 0 kTypeGuid)
      GUID_LEN (stampedGuid guidR)) (GUID_LEN + GUID_LEN) (be32enc kDefaultVersion) =
      createdBlock 4096 backdrop guidR := rfl
  rw [hcb] at hB2len hs1 hs2 hs3 hs4 hs5
  have hd2 : (Create dev64 key backdrop guidR dkR divR 16 w0 d).2.2 = (CommitBlock 16 (sealedVol key (createdVol (initVol w0) backdrop guidR dkR divR)) d).2.2.1 := by rw [hCr]
  have g1 : (Create dev64 key backdrop guidR dkR divR 16 w0 d).1 = Status.ok := by
    rw [hCr]
    exact (commitBlock_fields 16 (sealedVol key (createdVol (initVol w0) backdrop guidR dkR divR)) d).1
  have g2 : (Create dev64 key backdrop guidR dkR divR 16 w0 d).2.1.data_key = fill kDataKeyLen dkR := by
    rw [hCr]
    show (CommitBlock 16 (sealedVol key (createdVol (initVol w0) backdrop guidR dkR divR)) d).2.1.data_key = fill kDataKeyLen dkR
    rw [(commitBlock_fields 16 (sealedVol key (createdVol (initVol w0) backdrop guidR dkR divR)) d).2.1]
    rfl
  have g3 : (Create dev64 key backdrop guidR dkR divR 16 w0 d).2.1.data_iv = fill kDataIvLen divR := by
    rw [hCr]
    show (CommitBlock 16 (sealedVol key (createdVol (initVol w0) backdrop guidR dkR divR)) d).2.1.data_iv = fill kDataIvLen divR
    rw [(commitBlock_fields 16 (sealedVol key (createdVol (initVol w0) backdrop guidR dkR divR)) d).2.2.1]
    rfl
  have hrd2 : ∀ L, ((Create dev64 key backdrop guidR dkR divR 16 w0 d).2.2).readOk L = true := by
    intro L
    rw [hd2, (commitBlock_fields 16 (sealedVol key (createdVol (initVol w0) backdrop guidR dkR divR)) d).2.2.2]
    exact hrd L
  have hlsS : (locations 16 (sealedVol key (createdVol (initVol w0) backdrop guidR dkR divR)).block.length (sealedVol key (createdVol (initVol w0) backdrop guidR dkR divR)).fvm_slice_size
      (sealedVol key (createdVol (initVol w0) backdrop guidR dkR divR)).fvm_vslice_count).1 = [0, 4096, 253952, 258048] := by
    rw [hSb, hB2len, show (sealedVol key (createdVol (initVol w0) backdrop guidR dkR divR)).fvm_slice_size = (8192 : Nat) from rfl,
      show (sealedVol key (createdVol (initVol w0) backdrop guidR dkR divR)).fvm_vslice_count = (30 : Nat) from rfl]
    exact locations_s1
  have hmem0 : fill 4096 ((Create dev64 key backdrop guidR dkR divR 16 w0 d).2.2.mem 0) = (listWrite (createdBlock 4096 backdrop guidR) kHeaderLen (aeadSeal (hkdfDerive DigestAlg.sha256 key (stampedGuid guidR) (wrapKeyLabel 0) kAeadKeyLen) (hkdfDerive DigestAlg.sha256 key (stampedGuid guidR) (wrapIvLabel 0) kAeadIvLen) ((createdBlock 4096 backdrop guidR).take kHeaderLen) (fill kDataKeyLen dkR ++ fill kDataIvLen divR))) := by
    have h := commitBlock_heal 16 (sealedVol key (createdVol (initVol w0) backdrop guidR dkR divR)) d 0 (fun x _ => hwr x) (by rw [hlsS]; decide)
    rw [hSb] at h
    rw [hB2len] at h
    rw [hd2]
    exact h
  have hvb : (fill (initVol w1).block.length ((Create dev64 key backdrop guidR dkR divR 16 w0 d).2.2.mem 0)) = (listWrite (createdBlock 4096 backdrop guidR) kHeaderLen (aeadSeal (hkdfDerive DigestAlg.sha256 key (stampedGuid guidR) (wrapKeyLabel 0) kAeadKeyLen) (hkdfDerive DigestAlg.sha256 key (stampedGuid guidR) (wrapIvLabel 0) kAeadIvLen) ((createdBlock 4096 backdrop guidR).take kHeaderLen) (fill kDataKeyLen dkR ++ fill kDataIvLen divR))) := by
    rw [hlen1]
    exact hmem0
  have hPTb : ∀ b ∈ fill kDataKeyLen dkR ++ fill kDataIvLen divR, b < 256 := by
    intro b hb
    rcases List.mem_append.mp hb with h | h
    · exact fill_bytes_lt _ _ hdkb b h
    · exact fill_bytes_lt _ _ hdivb b h
  have hOBS := openBlock_success key 0 { initVol w1 with offset := 0, block := (fill (initVol w1).block.length ((Create dev64 key backdrop guidR dkR divR 16 w0 d).2.2.mem 0)) }
    (fill kDataKeyLen dkR) (fill kDataIvLen divR)
    (by
      dsimp only
      rw [hvb, hs1]
      exact fun hne => hne rfl)
    (by
      dsimp only
      rw [hvb, hs3]
      decide)
    (by
      dsimp only [initVol]
      decide)
    (length_fill _ _) (length_fill _ _)
    (by
      dsimp only
      rw [hvb, hs2, hs4, hs5]
      exact aeadOpen_seal _ _ _ _ hPTb)
  have hov : OpenVolume dev64 key 0 16 w1 (Create dev64 key backdrop guidR dkR divR 16 w0 d).2.2 =
      OpenAny key 0 16 (initVol w1) (Create dev64 key backdrop guidR dkR divR 16 w0 d).2.2 := by
    simp only [OpenVolume, init_dev64]
    rw [if_neg (show ¬ kNumSlots ≤ 0 by decide)]
  have hls1 : (locations 16 (initVol w1).block.length (initVol w1).fvm_slice_size
      (initVol w1).fvm_vslice_count).1 = [0, 4096, 253952, 258048] := by
    rw [hlen1, show (initVol w1).fvm_slice_size = (8192 : Nat) from rfl,
      show (initVol w1).fvm_vslice_count = (30 : Nat) from rfl]
    exact locations_s1
  have hoa : OpenAny key 0 16 (initVol w1) (Create dev64 key backdrop guidR dkR divR 16 w0 d).2.2 =
      openLoop key 0 16 [0, 4096, 253952, 258048] (initVol w1) (Create dev64 key backdrop guidR dkR divR 16 w0 d).2.2 := by
    show openLoop key 0 16 (locations 16 (initVol w1).block.length
      (initVol w1).fvm_slice_size (initVol w1).fvm_vslice_count).1
      (initVol w1) (Create dev64 key backdrop guidR dkR divR 16 w0 d).2.2 = _
    rw [hls1]
  have hcons := openLoop_cons_success key 0 16 0 [4096, 253952, 258048]
    (initVol w1) (Create dev64 key backdrop guidR dkR divR 16 w0 d).2.2 (hrd2 0) hOBS.1
  have hOpen := hov.trans (hoa.trans hcons)
  have g4 : (OpenVolume dev64 key 0 16 w1 (Create dev64 key backdrop guidR dkR divR 16 w0 d).2.2).1 = Status.ok := by
    rw [hOpen]
    dsimp only
    exact (commitBlock_fields _ _ _).1
  have g5 : (OpenVolume dev64 key 0 16 w1 (Create dev64 key backdrop guidR dkR divR 16 w0 d).2.2).2.1.data_key =
      fill kDataKeyLen dkR := by
    rw [hOpen]
    dsimp only
    rw [(commitBlock_fields _ _ _).2.1, hOBS.2.1]
  have g6 : (OpenVolume dev64 key 0 16 w1 (Create dev64 key backdrop guidR dkR divR 16 w0 d).2.2).2.1.data_iv =
      fill kDataIvLen divR := by
    rw [hOpen]
    dsimp only
    rw [(commitBlock_fields _ _ _).2.2.1, hOBS.2.2]
  exact ⟨g1, g2, g3, g4, g5, g6⟩

/-- Witness for `create_then_open_recovers_keys` at a concrete root key,
randomness and all-succeeding disk. -/
theorem create_then_open_recovers_keys_witness :
    (∀ b ∈ ([4] : Bytes), b < 256) ∧ (∀ b ∈ ([5] : Bytes), b < 256) ∧
    (∀ L, dAll.readOk L = true) ∧ (∀ L, dAll.writeOk L = true) ∧
    ((Create dev64 [1] [2] [3] [4] [5] 16 resetVolume dAll).1 = Status.ok ∧
      (Create dev64 [1] [2] [3] [4] [5] 16 resetVolume dAll).2.1.data_key = fill kDataKeyLen [4] ∧
      (Create dev64 [1] [2] [3] [4] [5] 16 resetVolume dAll).2.1.data_iv = fill kDataIvLen [5] ∧
      (OpenVolume dev64 [1] 0 16 resetVolume (Create dev64 [1] [2] [3] [4] [5] 16 resetVolume dAll).2.2).1 = Status.ok ∧
      (OpenVolume dev64 [1] 0 16 resetVolume (Create dev64 [1] [2] [3] [4] [5] 16 resetVolume dAll).2.2).2.1.data_key =
        fill kDataKeyLen [4] ∧
      (OpenVolume dev64 [1] 0 16 resetVolume (Create dev64 [1] [2] [3] [4] [5] 16 resetVolume dAll).2.2).2.1.data_iv =
        fill kDataIvLen [5]) :=
  ⟨by decide, by decide, fun L => rfl, fun L => rfl,
    create_then_open_recovers_keys [1] [2] [3] [4] [5] resetVolume resetVolume
      dAll (by decide) (by decide) (fun L => rfl) (fun L => rfl)⟩

end Zxcrypt
